import Mathlib

/-!
Verification of the real-time TCG game service of this repository
(`src/src/index.ts`): room registry, matchmaking handlers, and the
turn-based match engine, shallowly embedded as executable Lean functions.

Modelling conventions:
* JS `Map` objects (`rooms`, `gameStates`) are association lists with
  `Map.get`/`Map.set`/`Map.delete` semantics (`alGet`/`alSet`/`alErase`).
* The socket layer is explicit: the set of connected socket ids is part of
  the world state (`World.conn`); `io.sockets.sockets.get(sid)` is
  membership in that set.  Inbound events can only originate from a
  connected socket, and a disconnect removes the socket and runs the
  `disconnect` handler in the same atomic step, which is how the single
  event loop of the source serialises them.
* External calls (`prisma.deck.findUnique`, `Math.random`) are oracles
  carried by the event: the deck-query results as `Option Deck` values,
  the randomness of the Fisher-Yates shuffle as a `Nat → Nat` function.
* `Date` values (`room.createdAt`) carry no game logic and are omitted.
* Machine numbers used by the handlers are all small non-negative
  integers (ids, scores, lengths) or card stats; they are modelled as
  `Nat`/`Int`.  The JS `Number` coercion performed by the id guards is
  modelled separately (`JsVal`, `toNumber`) for the dispatcher claims.
-/

/-- Pokémon elemental types.  The generated Prisma enum is not part of the
repository snapshot; the constructors cover the types used by the seed data
and tests (Fire/Water/Grass/Electric plus a catch-all sample of others).
Only the identity of the type matters to the handlers. -/
inductive PokemonType where
  | fire | water | grass | electric | psychic | fighting | normal
deriving DecidableEq, Repr

/-- In-game card, `interface GameCard` (src/src/index.ts:53-59).
The `type` field is renamed `ptype` (`type` is not a usable name). -/
structure GameCard where
  id : Nat
  name : String
  hp : Int
  attack : Int
  ptype : PokemonType
deriving DecidableEq, Repr

/-- `type RoomStatus = 'waiting' | 'in-game'` (src/src/index.ts:29). -/
inductive RoomStatus where
  | waiting | inGame
deriving DecidableEq, Repr

/-- `interface MatchmakingRoom` (src/src/index.ts:31-43); the `createdAt`
timestamp carries no handler logic and is omitted. -/
structure MatchmakingRoom where
  id : Nat
  status : RoomStatus
  hostSocketId : String
  hostUserId : Nat
  hostUsername : String
  hostDeckId : Nat
  guestSocketId : Option String := none
  guestUserId : Option Nat := none
  guestUsername : Option String := none
  guestDeckId : Option Nat := none
deriving DecidableEq, Repr

/-- `interface PublicRoom` (src/src/index.ts:45-50) without the
`createdAt` ISO string (see `MatchmakingRoom`). -/
structure PublicRoom where
  id : Nat
  hostUsername : String
  hostUserId : Nat
deriving DecidableEq, Repr

/-- `interface GameState` (src/src/index.ts:62-72). -/
structure GameState where
  hostDeck : List GameCard
  hostHand : List GameCard
  hostActive : Option GameCard
  hostScore : Nat
  guestDeck : List GameCard
  guestHand : List GameCard
  guestActive : Option GameCard
  guestScore : Nat
  currentPlayerSocketId : String
deriving DecidableEq, Repr

/-- `interface GameStateView` (src/src/index.ts:75-85). -/
structure GameStateView where
  roomId : Nat
  myHand : List GameCard
  myActive : Option GameCard
  myDeckCount : Nat
  myScore : Nat
  opponentActive : Option GameCard
  opponentDeckCount : Nat
  opponentScore : Nat
  currentPlayerSocketId : String
deriving DecidableEq, Repr

/-- The two fixed participant roles of a room. -/
inductive Role where
  | host | guest
deriving DecidableEq, Repr

/-- Result of a `prisma.deck.findUnique({include: {deckCards, user}})`
call as consumed by the handlers: the owning user id, the owner's
username, and the deck's cards already mapped through `toGameCards`
(src/src/index.ts:411-428).  The deck's own id is the id it was queried
by.  `createRoom` only reads `deckCards.length`, `userId` and
`user.username`, so a single record type serves both queries. -/
structure Deck where
  userId : Nat
  username : String
  cards : List GameCard
deriving DecidableEq, Repr

/-- An authenticated socket: socket id plus the `userId` attached by the
JWT middleware (src/src/index.ts:171-192).  The `email` field is only
logged and is omitted. -/
structure SocketInfo where
  sid : String
  userId : Nat
deriving DecidableEq, Repr

/-! ## JS `Map` as an association list -/

/-- `Map.get`: value of the first (unique) entry with the given key. -/
def alGet {α : Type} (k : Nat) : List (Nat × α) → Option α
  | [] => none
  | (k', v) :: t => if k' = k then some v else alGet k t

/-- `Map.set`: replace the entry in place, or append a fresh one
(insertion-order semantics of JS `Map`). -/
def alSet {α : Type} (k : Nat) (v : α) : List (Nat × α) → List (Nat × α)
  | [] => [(k, v)]
  | (k', v') :: t => if k' = k then (k, v) :: t else (k', v') :: alSet k v t

/-- `Map.delete`. -/
def alErase {α : Type} (k : Nat) (l : List (Nat × α)) : List (Nat × α) :=
  l.filter (fun p => decide (p.1 ≠ k))

/-! ## Fisher-Yates shuffle (src/src/index.ts:91-98)

`Math.random()` is an oracle `rnd : Nat → Nat`: at loop index `i` the
source draws `j = Math.floor(Math.random() * (i + 1)) ∈ [0, i]`, modelled
as `rnd i % (i + 1)`. -/

/-- Swap the entries at positions `i` and `j` (the destructuring swap of
the source; the indices used by `shuffle` are always in bounds, and the
guard makes the function total). -/
def swapL (l : List GameCard) (i j : Nat) : List GameCard :=
  match l.get? i, l.get? j with
  | some a, some b => (l.set i b).set j a
  | _, _ => l

/-- The loop `for (let i = out.length - 1; i > 0; i--)`: `fisherAux rnd i`
performs the iterations for indices `i, i-1, …, 1`. -/
def fisherAux (rnd : Nat → Nat) : Nat → List GameCard → List GameCard
  | 0, out => out
  | i + 1, out => fisherAux rnd i (swapL out (i + 1) (rnd (i + 1) % (i + 2)))

/-- `shuffle` (src/src/index.ts:91-98). -/
def shuffle (rnd : Nat → Nat) (l : List GameCard) : List GameCard :=
  fisherAux rnd (l.length - 1) l

/-! ## The draw loop (src/src/index.ts:516-518)

`while (hand.length < 5 && deck.length > 0) hand.push(deck.pop()!)`.
The loop is fuel-indexed (one unit per possible `pop`); `drawLoop` runs it
with fuel `deck.length`, which the loop can never exhaust. -/

def drawGo : Nat → List GameCard → List GameCard → List GameCard × List GameCard
  | 0, deck, hand => (deck, hand)
  | fuel + 1, deck, hand =>
    if hand.length < 5 then
      match deck.getLast? with
      | some c => drawGo fuel deck.dropLast (hand ++ [c])
      | none => (deck, hand)
    else (deck, hand)

/-- The draw loop of the `drawCards` handler. -/
def drawLoop (deck hand : List GameCard) : List GameCard × List GameCard :=
  drawGo deck.length deck hand

/-! ## View projection and room serialisation -/

/-- `buildGameStateView` (src/src/index.ts:100-129). -/
def buildGameStateView (roomId : Nat) (state : GameState) (role : Role) : GameStateView :=
  match role with
  | .host =>
    { roomId := roomId
      myHand := state.hostHand
      myActive := state.hostActive
      myDeckCount := state.hostDeck.length
      myScore := state.hostScore
      opponentActive := state.guestActive
      opponentDeckCount := state.guestDeck.length
      opponentScore := state.guestScore
      currentPlayerSocketId := state.currentPlayerSocketId }
  | .guest =>
    { roomId := roomId
      myHand := state.guestHand
      myActive := state.guestActive
      myDeckCount := state.guestDeck.length
      myScore := state.guestScore
      opponentActive := state.hostActive
      opponentDeckCount := state.hostDeck.length
      opponentScore := state.hostScore
      currentPlayerSocketId := state.currentPlayerSocketId }

/-- `serializeRoom` (src/src/index.ts:194-199). -/
def serializeRoom (room : MatchmakingRoom) : PublicRoom :=
  { id := room.id, hostUsername := room.hostUsername, hostUserId := room.hostUserId }

/-- `getWaitingRooms` (src/src/index.ts:201-204); `Array.from(rooms.values())`
is the insertion-order value list of the map. -/
def getWaitingRooms (rooms : List (Nat × MatchmakingRoom)) : List PublicRoom :=
  ((rooms.map Prod.snd).filter
    (fun room => decide (room.status = RoomStatus.waiting))).map serializeRoom

/-! ## Damage -/

/-- Modelled from the spec: the source of `calculateDamage`
(`src/utils/rules.util.ts`) is not in the repository snapshot, only its
call site (src/src/index.ts:635-639).  Spec §4.1: the strong pairs follow
the classic triangle Fire>Grass, Grass>Water, Water>Fire. -/
def strongAgainst : PokemonType → PokemonType → Bool
  | .fire, .grass => true
  | .grass, .water => true
  | .water, .fire => true
  | _, _ => false

/-- Modelled from the spec: `damage(attack, attackerType, defenderType)`
(spec §4.1) — base damage `attack`, doubled when the attacker is strong
against the defender, halved (rounded down) when weak, floored at 0. -/
def calculateDamage (attack : Int) (attackerType defenderType : PokemonType) : Int :=
  if strongAgainst attackerType defenderType then max 0 (attack * 2)
  else if strongAgainst defenderType attackerType then max 0 (attack.fdiv 2)
  else max 0 attack

/-! ## World state, events and outputs -/

/-- The process-wide mutable state of the service: the `rooms` and
`gameStates` maps and the `nextRoomId` counter (src/src/index.ts:87-89),
plus the set of currently connected socket ids (`io.sockets.sockets`). -/
structure World where
  rooms : List (Nat × MatchmakingRoom)
  gameStates : List (Nat × GameState)
  nextRoomId : Nat
  conn : List String
deriving DecidableEq, Repr

/-- Fresh process state: empty maps, `nextRoomId = 1`, nobody connected. -/
def initWorld : World := { rooms := [], gameStates := [], nextRoomId := 1, conn := [] }

/-- Outbound socket messages.  `dst` is the receiving socket id; the
`roomsListUpdated` broadcast goes to every connected session. -/
inductive Output where
  | errorEvt (dst : String) (event : String) (message : String)
  | roomsList (dst : String) (rs : List PublicRoom)
  | roomCreated (dst : String) (r : PublicRoom)
  | roomsListUpdated (rs : List PublicRoom)
  | gameStarted (dst : String) (roomId : Nat) (youRole oppRole : Role)
      (youUserId oppUserId youDeckId oppDeckId : Nat)
  | gameStateUpdated (dst : String) (v : GameStateView)
  | gameEnded (dst : String) (roomId : Nat) (winnerSocketId : String)
      (hostScore guestScore : Nat)
deriving DecidableEq, Repr

/-- `emitGameStateUpdated` (src/src/index.ts:131-143), called by the action
handlers after their mutation, hence evaluated on the updated world. -/
def emitGameStateUpdated (w : World) (roomId : Nat) : List Output :=
  match alGet roomId w.rooms, alGet roomId w.gameStates with
  | some room, some state =>
    match room.guestSocketId with
    | none => []
    | some g =>
      if room.hostSocketId ∈ w.conn ∧ g ∈ w.conn then
        [.gameStateUpdated room.hostSocketId (buildGameStateView roomId state .host),
         .gameStateUpdated g (buildGameStateView roomId state .guest)]
      else []
  | _, _ => []

/-! ## Handlers

Each handler takes the pre-state of the world and returns the post-state
together with the emitted messages.  The id payloads arrive here already
coerced to integers; the `Number()` guard that precedes each handler body
is modelled separately below (`idRejected`), since a payload rejected
there reaches no handler and changes nothing.  The deck-repository
results and the shuffle randomness are oracle arguments. -/

/-- `createRoom` handler (src/src/index.ts:215-294), from the deck query on;
`deckRes` is the `prisma.deck.findUnique` result for `deckId`. -/
def runCreateRoom (self : SocketInfo) (deckId : Nat) (deckRes : Option Deck)
    (w : World) : World × List Output :=
  match deckRes with
  | none => (w, [.errorEvt self.sid "createRoom" "Deck introuvable"])
  | some deck =>
    if deck.userId ≠ self.userId then
      (w, [.errorEvt self.sid "createRoom"
            "Ce deck n\x27appartient pas à l\x27utilisateur connecté"])
    else if deck.cards.length ≠ 10 then
      (w, [.errorEvt self.sid "createRoom" "Le deck doit contenir exactement 10 cartes"])
    else
      let roomId := w.nextRoomId
      let room : MatchmakingRoom :=
        { id := roomId, status := .waiting, hostSocketId := self.sid,
          hostUserId := self.userId, hostUsername := deck.username, hostDeckId := deckId }
      let rooms2 := alSet roomId room w.rooms
      ({ w with rooms := rooms2, nextRoomId := roomId + 1 },
       [.roomCreated self.sid (serializeRoom room),
        .roomsListUpdated (getWaitingRooms rooms2)])

/-- `joinRoom` handler (src/src/index.ts:296-486), from the room lookup on.
`deckRes` is the deck query for the joiner's `deckId`; `hostDeckRes` is the
post-suspension reload of the host's deck (line 399).  Note that the room
record is mutated (lines 393-397) before `hostDeckRes` is validated. -/
def runJoinRoom (self : SocketInfo) (roomId deckId : Nat)
    (deckRes hostDeckRes : Option Deck) (rndHost rndGuest : Nat → Nat)
    (w : World) : World × List Output :=
  match alGet roomId w.rooms with
  | none => (w, [.errorEvt self.sid "joinRoom" "La room n\x27existe pas"])
  | some room =>
    if room.status ≠ RoomStatus.waiting ∨ room.guestSocketId ≠ none then
      (w, [.errorEvt self.sid "joinRoom" "La room est déjà complète"])
    else
      match deckRes with
      | none => (w, [.errorEvt self.sid "joinRoom" "Deck introuvable"])
      | some deck =>
        if deck.userId ≠ self.userId then
          (w, [.errorEvt self.sid "joinRoom"
                "Ce deck n\x27appartient pas à l\x27utilisateur connecté"])
        else if deck.cards.length ≠ 10 then
          (w, [.errorEvt self.sid "joinRoom" "Le deck doit contenir exactement 10 cartes"])
        else if room.hostSocketId ∉ w.conn then
          let rooms2 := alErase room.id w.rooms
          ({ w with rooms := rooms2 },
           [.errorEvt self.sid "joinRoom" "Le joueur hôte est déconnecté",
            .roomsListUpdated (getWaitingRooms rooms2)])
        else
          let room2 : MatchmakingRoom :=
            { room with
              status := RoomStatus.inGame,
              guestSocketId := some self.sid,
              guestUserId := some self.userId,
              guestUsername := some deck.username,
              guestDeckId := some deckId }
          let rooms2 := alSet roomId room2 w.rooms
          match hostDeckRes with
          | none =>
            ({ w with rooms := rooms2 },
             [.errorEvt self.sid "joinRoom" "Deck du host invalide"])
          | some hostDeckData =>
            if hostDeckData.cards.length ≠ 10 then
              ({ w with rooms := rooms2 },
               [.errorEvt self.sid "joinRoom" "Deck du host invalide"])
            else
              let gameState : GameState :=
                { hostDeck := shuffle rndHost hostDeckData.cards
                  hostHand := []
                  hostActive := none
                  hostScore := 0
                  guestDeck := shuffle rndGuest deck.cards
                  guestHand := []
                  guestActive := none
                  guestScore := 0
                  currentPlayerSocketId := room.hostSocketId }
              ({ w with
                  rooms := rooms2
                  gameStates := alSet room.id gameState w.gameStates },
               [.gameStarted room.hostSocketId room.id .host .guest
                  room.hostUserId self.userId room.hostDeckId deckId,
                .gameStarted self.sid room.id .guest .host
                  self.userId room.hostUserId deckId room.hostDeckId,
                .roomsListUpdated (getWaitingRooms rooms2)])

/-- `drawCards` handler (src/src/index.ts:488-527), from the map lookups on. -/
def runDrawCards (self : SocketInfo) (roomId : Nat) (w : World) : World × List Output :=
  match alGet roomId w.rooms, alGet roomId w.gameStates with
  | some room, some state =>
    match room.guestSocketId with
    | none => (w, [.errorEvt self.sid "drawCards" "Room introuvable ou partie non démarrée"])
    | some _ =>
      if state.currentPlayerSocketId ≠ self.sid then
        (w, [.errorEvt self.sid "drawCards" "Ce n\x27est pas votre tour"])
      else
        let state2 :=
          if self.sid = room.hostSocketId then
            let dh := drawLoop state.hostDeck state.hostHand
            { state with hostDeck := dh.1, hostHand := dh.2 }
          else
            let dh := drawLoop state.guestDeck state.guestHand
            { state with guestDeck := dh.1, guestHand := dh.2 }
        let w2 := { w with gameStates := alSet roomId state2 w.gameStates }
        (w2, emitGameStateUpdated w2 roomId)
  | _, _ => (w, [.errorEvt self.sid "drawCards" "Room introuvable ou partie non démarrée"])

/-- `playCard` handler (src/src/index.ts:529-591).  `cardIndex` is the
(integral) payload field; the `undefined` payload case is a dispatcher
rejection like the id guards. -/
def runPlayCard (self : SocketInfo) (roomId : Nat) (cardIndex : Int)
    (w : World) : World × List Output :=
  if cardIndex < 0 then
    (w, [.errorEvt self.sid "playCard" "Index de carte invalide"])
  else
    match alGet roomId w.rooms, alGet roomId w.gameStates with
    | some room, some state =>
      match room.guestSocketId with
      | none => (w, [.errorEvt self.sid "playCard" "Room introuvable ou partie non démarrée"])
      | some _ =>
        if state.currentPlayerSocketId ≠ self.sid then
          (w, [.errorEvt self.sid "playCard" "Ce n\x27est pas votre tour"])
        else if self.sid = room.hostSocketId then
          match state.hostActive with
          | some _ =>
            (w, [.errorEvt self.sid "playCard" "Vous avez déjà une carte active sur le terrain"])
          | none =>
            if h : cardIndex.toNat < state.hostHand.length then
              let card := state.hostHand.get ⟨cardIndex.toNat, h⟩
              let state2 := { state with
                hostHand := state.hostHand.eraseIdx cardIndex.toNat
                hostActive := some card }
              let w2 := { w with gameStates := alSet roomId state2 w.gameStates }
              (w2, emitGameStateUpdated w2 roomId)
            else (w, [.errorEvt self.sid "playCard" "Index de carte invalide"])
        else
          match state.guestActive with
          | some _ =>
            (w, [.errorEvt self.sid "playCard" "Vous avez déjà une carte active sur le terrain"])
          | none =>
            if h : cardIndex.toNat < state.guestHand.length then
              let card := state.guestHand.get ⟨cardIndex.toNat, h⟩
              let state2 := { state with
                guestHand := state.guestHand.eraseIdx cardIndex.toNat
                guestActive := some card }
              let w2 := { w with gameStates := alSet roomId state2 w.gameStates }
              (w2, emitGameStateUpdated w2 roomId)
            else (w, [.errorEvt self.sid "playCard" "Index de carte invalide"])
    | _, _ => (w, [.errorEvt self.sid "playCard" "Room introuvable ou partie non démarrée"])

/-- Damage resolution and turn flip of the `attack` handler
(src/src/index.ts:635-653): compute the damage, subtract it from the
defender's active card; on a knockout (`hp ≤ 0`) clear that card and
increment the attacker's score; then hand the turn to the opponent.
`g` is the room's guest socket id (already matched by the caller). -/
def attackResolve (room : MatchmakingRoom) (g : String) (self : SocketInfo)
    (state : GameState) (atk dfd : GameCard) : GameState :=
  let damage := calculateDamage atk.attack atk.ptype dfd.ptype
  let newHp := dfd.hp - damage
  let state2 :=
    if newHp ≤ 0 then
      if self.sid = room.hostSocketId then
        { state with guestActive := none, hostScore := state.hostScore + 1 }
      else
        { state with hostActive := none, guestScore := state.guestScore + 1 }
    else
      if self.sid = room.hostSocketId then
        { state with guestActive := some { dfd with hp := newHp } }
      else
        { state with hostActive := some { dfd with hp := newHp } }
  { state2 with currentPlayerSocketId :=
      if state.currentPlayerSocketId = room.hostSocketId then g
      else room.hostSocketId }

/-- `attack` handler (src/src/index.ts:593-682). -/
def runAttack (self : SocketInfo) (roomId : Nat) (w : World) : World × List Output :=
  match alGet roomId w.rooms, alGet roomId w.gameStates with
  | some room, some state =>
    match room.guestSocketId with
    | none => (w, [.errorEvt self.sid "attack" "Room introuvable ou partie non démarrée"])
    | some g =>
      if state.currentPlayerSocketId ≠ self.sid then
        (w, [.errorEvt self.sid "attack" "Ce n\x27est pas votre tour"])
      else
        match if self.sid = room.hostSocketId then state.hostActive else state.guestActive with
        | none => (w, [.errorEvt self.sid "attack" "Vous n\x27avez pas de carte active"])
        | some atk =>
          match if self.sid = room.hostSocketId then state.guestActive else state.hostActive with
          | none => (w, [.errorEvt self.sid "attack" "L\x27adversaire n\x27a pas de carte active"])
          | some dfd =>
            let state3 := attackResolve room g self state atk dfd
            let w2 := { w with gameStates := alSet roomId state3 w.gameStates }
            if room.hostSocketId ∈ w.conn ∧ g ∈ w.conn then
              if state3.hostScore ≥ 3 then
                ({ w2 with gameStates := alErase roomId w2.gameStates },
                 [.gameEnded room.hostSocketId roomId room.hostSocketId
                    state3.hostScore state3.guestScore,
                  .gameEnded g roomId room.hostSocketId
                    state3.hostScore state3.guestScore])
              else if state3.guestScore ≥ 3 then
                ({ w2 with gameStates := alErase roomId w2.gameStates },
                 [.gameEnded room.hostSocketId roomId g state3.hostScore state3.guestScore,
                  .gameEnded g roomId g state3.hostScore state3.guestScore])
              else (w2, emitGameStateUpdated w2 roomId)
            else (w2, [])
  | _, _ => (w, [.errorEvt self.sid "attack" "Room introuvable ou partie non démarrée"])

/-- `endTurn` handler (src/src/index.ts:684-714). -/
def runEndTurn (self : SocketInfo) (roomId : Nat) (w : World) : World × List Output :=
  match alGet roomId w.rooms, alGet roomId w.gameStates with
  | some room, some state =>
    match room.guestSocketId with
    | none => (w, [.errorEvt self.sid "endTurn" "Room introuvable ou partie non démarrée"])
    | some g =>
      if state.currentPlayerSocketId ≠ self.sid then
        (w, [.errorEvt self.sid "endTurn" "Ce n\x27est pas votre tour"])
      else
        let state2 := { state with currentPlayerSocketId :=
            if state.currentPlayerSocketId = room.hostSocketId then g
            else room.hostSocketId }
        let w2 := { w with gameStates := alSet roomId state2 w.gameStates }
        (w2, emitGameStateUpdated w2 roomId)
  | _, _ => (w, [.errorEvt self.sid "endTurn" "Room introuvable ou partie non démarrée"])

/-- Does the room reference the socket as host or guest
(the condition at src/src/index.ts:722)? -/
def roomHasSocket (sid : String) (room : MatchmakingRoom) : Bool :=
  decide (room.hostSocketId = sid) || decide (room.guestSocketId = some sid)

/-- `disconnect` handler (src/src/index.ts:716-732), fused with the removal
of the socket from `io.sockets.sockets`: both happen in the same event-loop
step.  `gameStates` entries are only deleted for room ids that were present
in `rooms`, exactly as the `rooms.forEach` of the source does. -/
def runDisconnect (sid : String) (w : World) : World × List Output :=
  let doomed := (w.rooms.filter (fun p => roomHasSocket sid p.2)).map Prod.fst
  let rooms2 := w.rooms.filter (fun p => !roomHasSocket sid p.2)
  let gameStates2 := w.gameStates.filter (fun p => !decide (p.1 ∈ doomed))
  let w2 := { w with
    rooms := rooms2
    gameStates := gameStates2
    conn := w.conn.filter (fun s => !decide (s = sid)) }
  (w2, if doomed.isEmpty then [] else [.roomsListUpdated (getWaitingRooms rooms2)])

/-- Inbound events.  Application events carry the authenticated socket that
sent them, the already-coerced integer payload fields, and the oracle
results of the external calls the handler will make (deck queries,
shuffle randomness). -/
inductive Ev where
  | connect (sid : String)
  | disconnect (sid : String)
  | getRooms (self : SocketInfo)
  | createRoom (self : SocketInfo) (deckId : Nat) (deckRes : Option Deck)
  | joinRoom (self : SocketInfo) (roomId deckId : Nat)
      (deckRes hostDeckRes : Option Deck) (rndHost rndGuest : Nat → Nat)
  | drawCards (self : SocketInfo) (roomId : Nat)
  | playCard (self : SocketInfo) (roomId : Nat) (cardIndex : Int)
  | attack (self : SocketInfo) (roomId : Nat)
  | endTurn (self : SocketInfo) (roomId : Nat)

/-- One step of the event loop.  Application events can only be delivered
by a socket that is currently connected (the transport guarantees this; a
disconnect removes the socket and runs its cleanup handler atomically
with respect to other events). -/
def runEv (w : World) : Ev → World × List Output
  | .connect sid => ({ w with conn := sid :: w.conn }, [])
  | .disconnect sid => runDisconnect sid w
  | .getRooms self =>
    if self.sid ∈ w.conn then
      (w, [.roomsList self.sid (getWaitingRooms w.rooms)])
    else (w, [])
  | .createRoom self deckId deckRes =>
    if self.sid ∈ w.conn then runCreateRoom self deckId deckRes w else (w, [])
  | .joinRoom self roomId deckId deckRes hostDeckRes rndHost rndGuest =>
    if self.sid ∈ w.conn then
      runJoinRoom self roomId deckId deckRes hostDeckRes rndHost rndGuest w
    else (w, [])
  | .drawCards self roomId =>
    if self.sid ∈ w.conn then runDrawCards self roomId w else (w, [])
  | .playCard self roomId cardIndex =>
    if self.sid ∈ w.conn then runPlayCard self roomId cardIndex w else (w, [])
  | .attack self roomId =>
    if self.sid ∈ w.conn then runAttack self roomId w else (w, [])
  | .endTurn self roomId =>
    if self.sid ∈ w.conn then runEndTurn self roomId w else (w, [])

/-- A step of the service: some event fires. -/
def stepR (w w' : World) : Prop := ∃ e : Ev, (runEv w e).1 = w'

/-- Worlds reachable from the fresh process state. -/
def Reach (w : World) : Prop := Relation.ReflTransGen stepR initWorld w

/-- All cards of a deck-query result have `hp ≥ 1`. -/
def deckPos : Option Deck → Prop
  | none => True
  | some d => ∀ c ∈ d.cards, 1 ≤ c.hp

/-- The event's oracle decks only carry cards with `hp ≥ 1` (vacuous for
everything but `joinRoom`, the only event that brings cards into play). -/
def posCardsEv : Ev → Prop
  | .joinRoom _ _ _ deckRes hostDeckRes _ _ => deckPos deckRes ∧ deckPos hostDeckRes
  | _ => True

/-- A step whose event brings only positive-hp cards into play. -/
def stepPos (w w' : World) : Prop := ∃ e : Ev, posCardsEv e ∧ (runEv w e).1 = w'

/-- Reachability when every card enters the game with `hp ≥ 1`
(hypothesis of the hp-positivity claim). -/
def ReachPos (w : World) : Prop := Relation.ReflTransGen stepPos initWorld w

/-! ## The id guards and the JS `Number` coercion

Every handler that receives a `roomId`/`deckId` starts with the same
guard (src/src/index.ts:489-496 in `drawCards`; likewise 225-233, 308-325,
532-540, 594-600, 685-692):

  `const n = Number(payload?.x); if (!payload?.x || Number.isNaN(n)) error`

The payload field is modelled as a `JsVal`, the coercion as `toNumber`,
covering the values a JSON payload can carry for these fields: a finite
number, `NaN`, infinities, a string (decimal or `Infinity` literals of
ECMAScript `Number()`; exponent/hex forms are not needed by any claim),
or a missing field. -/

/-- A JS number: finite (exactly-represented rational), `NaN`, `±Infinity`. -/
inductive JsNum where
  | fin (q : Rat)
  | nan
  | posInf
  | negInf
deriving DecidableEq, Repr

/-- A JSON payload value for an id field. -/
inductive JsVal where
  | undef
  | num (n : JsNum)
  | str (s : String)
deriving DecidableEq, Repr

/-- Digit run → value; `none` if empty or a non-digit appears. -/
def decDigits : List Char → Option Nat
  | [] => none
  | cs =>
    if cs.all (fun c => c.isDigit) then
      some (cs.foldl (fun a c => a * 10 + (c.toNat - 48)) 0)
    else none

/-- Split a character list at the dots. -/
def splitOnDot : List Char → List (List Char)
  | [] => [[]]
  | c :: t =>
    let r := splitOnDot t
    if c = '.' then [] :: r
    else
      match r with
      | h :: t2 => (c :: h) :: t2
      | [] => [[c]]

/-- Unsigned decimal literal (`"12"`, `"1."`, `".5"`, `"1.5"`) as a
numerator/denominator pair. -/
def parseUnsignedDec (cs : List Char) : Option (Nat × Nat) :=
  match splitOnDot cs with
  | [a] => (decDigits a).map (fun n => (n, 1))
  | [a, b] =>
    if a = [] ∧ b = [] then none
    else if (a = [] ∨ (decDigits a).isSome) ∧ (b = [] ∨ (decDigits b).isSome) then
      some ((decDigits a).getD 0 * 10 ^ b.length + (decDigits b).getD 0, 10 ^ b.length)
    else none
  | _ => none

/-- `Number(string)` on the decimal/`Infinity` fragment. -/
def jsStringToNumber (s : String) : JsNum :=
  match s.data with
  | [] => .fin 0
  | c :: rest =>
    let neg := c = '-'
    let body := if c = '-' ∨ c = '+' then rest else c :: rest
    if body = ['I', 'n', 'f', 'i', 'n', 'i', 't', 'y'] then
      (if neg then .negInf else .posInf)
    else
      match parseUnsignedDec body with
      | some nd => .fin (mkRat (if neg then -(nd.1 : Int) else (nd.1 : Int)) nd.2)
      | none => .nan

/-- `Number(v)` for the payload values above. -/
def toNumber : JsVal → JsNum
  | .undef => .nan
  | .num n => n
  | .str s => jsStringToNumber s

/-- JS truthiness of the raw payload value (`!payload?.x`). -/
def truthy : JsVal → Bool
  | .undef => false
  | .num (.fin q) => decide (q ≠ 0)
  | .num .nan => false
  | .num .posInf => true
  | .num .negInf => true
  | .str s => decide (s ≠ "")

/-- The id guard: the handler replies with the invalid-id error and stops
iff the raw value is falsy or its coercion is `NaN`. -/
def idRejected (v : JsVal) : Bool := !truthy v || decide (toNumber v = JsNum.nan)

/-- `rooms.get(n)` (or `prisma` by-id lookup) keyed by the integer ids the
registry allocates: a coerced number hits a key iff it is finite and
equal, as a rational, to one of the integer keys. -/
def roomKeyMatches (keys : List Nat) : JsNum → Bool
  | .fin q => keys.any (fun k => decide ((k : Rat) = q))
  | _ => false

/-! ## Reachability invariants -/

/-- Both sockets a room refers to are connected.  This holds for every
registered room because `joinRoom` checks the host's socket, the creator
and joiner deliver their own events over live sockets, and a disconnect
deletes every room of the closed socket in the same step. -/
def RoomConn (conn : List String) (room : MatchmakingRoom) : Prop :=
  room.hostSocketId ∈ conn ∧ ∀ g, room.guestSocketId = some g → g ∈ conn

/-- Per-game-state invariant: scores at most 2 (a score of 3 ends the
match and deletes the state in the same step), and per-player card
conservation — deck + hand + active + cards knocked out by the opponent
always total the 10-card starting deck. -/
def SInv (s : GameState) : Prop :=
  s.hostScore ≤ 2 ∧ s.guestScore ≤ 2 ∧
  s.hostDeck.length + s.hostHand.length
    + (if s.hostActive.isSome then 1 else 0) + s.guestScore = 10 ∧
  s.guestDeck.length + s.guestHand.length
    + (if s.guestActive.isSome then 1 else 0) + s.hostScore = 10

/-- World invariant: every registered room has connected sockets, and
every live game state satisfies `SInv`. -/
def WInv (w : World) : Prop :=
  (∀ p ∈ w.rooms, RoomConn w.conn p.2) ∧ (∀ q ∈ w.gameStates, SInv q.2)

/-- Every card in every zone of the game state has `hp ≥ 1`. -/
def HpPos (s : GameState) : Prop :=
  (∀ c ∈ s.hostDeck, 1 ≤ c.hp) ∧ (∀ c ∈ s.hostHand, 1 ≤ c.hp) ∧
  (∀ c, s.hostActive = some c → 1 ≤ c.hp) ∧
  (∀ c ∈ s.guestDeck, 1 ≤ c.hp) ∧ (∀ c ∈ s.guestHand, 1 ≤ c.hp) ∧
  (∀ c, s.guestActive = some c → 1 ≤ c.hp)

/-- `WInv` plus hp-positivity of all live game states. -/
def InvPos (w : World) : Prop := WInv w ∧ ∀ q ∈ w.gameStates, HpPos q.2

/-- Sample card: `hp = 5`, `attack = 2`. -/
def card (n : Nat) : GameCard :=
  { id := n, name := "c", hp := 5, attack := 2, ptype := PokemonType.fire }

/-- A ten-card sample deck. -/
def sampleCards : List GameCard :=
  [card 0, card 1, card 2, card 3, card 4, card 5, card 6, card 7, card 8, card 9]

def hostSock : SocketInfo := { sid := "h", userId := 7 }

def guestSock : SocketInfo := { sid := "g", userId := 8 }

def sampleDeckH : Deck := { userId := 7, username := "alice", cards := sampleCards }

def sampleDeckG : Deck := { userId := 8, username := "bob", cards := sampleCards }

/-- The events of a complete match start: two connections, `createRoom`,
`joinRoom` (with identity shuffles), a draw and a play by the host. -/
def w1 : World := (runEv initWorld (Ev.connect "h")).1

def w2 : World := (runEv w1 (Ev.connect "g")).1

def w3 : World := (runEv w2 (Ev.createRoom hostSock 1 (some sampleDeckH))).1

def w4 : World :=
  (runEv w3 (Ev.joinRoom guestSock 1 2 (some sampleDeckG) (some sampleDeckH) id id)).1

def w5 : World := (runEv w4 (Ev.drawCards hostSock 1)).1

def w6 : World := (runEv w5 (Ev.playCard hostSock 1 0)).1

/-- The game state of room 1 in `w6`: the host has drawn five cards from
the tail of the (identity-shuffled) deck and played the first of them. -/
def sampleState6 : GameState :=
  { hostDeck := [card 0, card 1, card 2, card 3, card 4]
    hostHand := [card 8, card 7, card 6, card 5]
    hostActive := some (card 9)
    hostScore := 0
    guestDeck := sampleCards
    guestHand := []
    guestActive := none
    guestScore := 0
    currentPlayerSocketId := "h" }

/-- Guest sample card for a decisive match: `hp = 1`. -/
def gcard (n : Nat) : GameCard :=
  { id := n, name := "d", hp := 1, attack := 2, ptype := PokemonType.water }

def sampleCardsG : List GameCard :=
  [gcard 0, gcard 1, gcard 2, gcard 3, gcard 4, gcard 5, gcard 6, gcard 7, gcard 8, gcard 9]

def sampleDeckG2 : Deck := { userId := 8, username := "bob", cards := sampleCardsG }

/-- A scripted match in which the host knocks out three guest actives
(guest cards have 1 hp): after `v16` the next host attack ends the game. -/
def v4 : World :=
  (runEv w3 (Ev.joinRoom guestSock 1 2 (some sampleDeckG2) (some sampleDeckH) id id)).1

def v5 : World := (runEv v4 (Ev.drawCards hostSock 1)).1

def v6 : World := (runEv v5 (Ev.playCard hostSock 1 0)).1

def v7 : World := (runEv v6 (Ev.endTurn hostSock 1)).1

def v8 : World := (runEv v7 (Ev.drawCards guestSock 1)).1

def v9 : World := (runEv v8 (Ev.playCard guestSock 1 0)).1

def v10 : World := (runEv v9 (Ev.endTurn guestSock 1)).1

def v11 : World := (runEv v10 (Ev.attack hostSock 1)).1

def v12 : World := (runEv v11 (Ev.playCard guestSock 1 0)).1

def v13 : World := (runEv v12 (Ev.endTurn guestSock 1)).1

def v14 : World := (runEv v13 (Ev.attack hostSock 1)).1

def v15 : World := (runEv v14 (Ev.playCard guestSock 1 0)).1

def v16 : World := (runEv v15 (Ev.endTurn guestSock 1)).1

/-- The room record of room 1 in `v16`. -/
def room16 : MatchmakingRoom :=
  { id := 1, status := RoomStatus.inGame, hostSocketId := "h", hostUserId := 7,
    hostUsername := "alice", hostDeckId := 1, guestSocketId := some "g",
    guestUserId := some 8, guestUsername := some "bob", guestDeckId := some 2 }

/-- The game state of room 1 in `v16`: host at score 2, about to win. -/
def state16 : GameState :=
  { hostDeck := [card 0, card 1, card 2, card 3, card 4]
    hostHand := [card 8, card 7, card 6, card 5]
    hostActive := some (card 9)
    hostScore := 2
    guestDeck := [gcard 0, gcard 1, gcard 2, gcard 3, gcard 4]
    guestHand := [gcard 6, gcard 5]
    guestActive := some (gcard 7)
    guestScore := 0
    currentPlayerSocketId := "h" }

/-- Two game states that agree on everything the `role` recipient may
see — their own zones and score, the opponent's active card, score and
deck length, and the current player — but may differ arbitrarily in the
opponent's hand contents and deck contents. -/
def AgreeExceptOppPrivate : Role → GameState → GameState → Prop
  | .host, s, t =>
    t.hostDeck = s.hostDeck ∧ t.hostHand = s.hostHand ∧
    t.hostActive = s.hostActive ∧ t.hostScore = s.hostScore ∧
    t.guestDeck.length = s.guestDeck.length ∧ t.guestActive = s.guestActive ∧
    t.guestScore = s.guestScore ∧
    t.currentPlayerSocketId = s.currentPlayerSocketId
  | .guest, s, t =>
    t.guestDeck = s.guestDeck ∧ t.guestHand = s.guestHand ∧
    t.guestActive = s.guestActive ∧ t.guestScore = s.guestScore ∧
    t.hostDeck.length = s.hostDeck.length ∧ t.hostActive = s.hostActive ∧
    t.hostScore = s.hostScore ∧
    t.currentPlayerSocketId = s.currentPlayerSocketId

/-- A pair of states for the C5 witness: same host data, completely
different guest hand and guest deck contents (equal deck length). -/
def stateA : GameState :=
  { hostDeck := [card 0], hostHand := [card 1], hostActive := none, hostScore := 1,
    guestDeck := [card 2, card 3], guestHand := [card 4], guestActive := some (card 5),
    guestScore := 2, currentPlayerSocketId := "h" }

def stateB : GameState :=
  { hostDeck := [card 0], hostHand := [card 1], hostActive := none, hostScore := 1,
    guestDeck := [card 6, card 7], guestHand := [card 8, card 9], guestActive := some (card 5),
    guestScore := 2, currentPlayerSocketId := "h" }

/-- The game state of room 1 in `w4`, just after the join. -/
def state4 : GameState :=
  { hostDeck := sampleCards, hostHand := [], hostActive := none, hostScore := 0,
    guestDeck := sampleCards, guestHand := [], guestActive := none, guestScore := 0,
    currentPlayerSocketId := "h" }

/-- The room record mutated by a successful join of `self` with `deckId`. -/
def joinedRoom (room : MatchmakingRoom) (self : SocketInfo) (deckId : Nat)
    (deck : Deck) : MatchmakingRoom :=
  { room with
    status := RoomStatus.inGame
    guestSocketId := some self.sid
    guestUserId := some self.userId
    guestUsername := some deck.username
    guestDeckId := some deckId }

/-- The game state created by a successful join. -/
def joinedState (room : MatchmakingRoom) (deck hostDeckData : Deck)
    (rndHost rndGuest : Nat → Nat) : GameState :=
  { hostDeck := shuffle rndHost hostDeckData.cards
    hostHand := []
    hostActive := none
    hostScore := 0
    guestDeck := shuffle rndGuest deck.cards
    guestHand := []
    guestActive := none
    guestScore := 0
    currentPlayerSocketId := room.hostSocketId }

/-- A session of the host's own user joining their own room. -/
def selfSock : SocketInfo := { sid := "g2", userId := 7 }

def u2 : World := (runEv w1 (Ev.connect "g2")).1

def u3 : World := (runEv u2 (Ev.createRoom hostSock 1 (some sampleDeckH))).1

/-- The waiting room of `u3`. -/
def room3 : MatchmakingRoom :=
  { id := 1, status := RoomStatus.waiting, hostSocketId := "h", hostUserId := 7,
    hostUsername := "alice", hostDeckId := 1 }

/-- A host deck reload result with only 9 cards (the deck was edited via
the deck-CRUD API between `createRoom` and `joinRoom`). -/
def deck9 : Deck :=
  { userId := 7
    username := "alice"
    cards := [card 0, card 1, card 2, card 3, card 4, card 5, card 6, card 7, card 8] }

/-- A hand-built world in which a waiting room's host socket has vanished
from the connection map while the room record is still registered (the
interleaving the post-`await` re-check at src/src/index.ts:379 guards
against). -/
def wOrphan : World :=
  { rooms := [(1, room3)], gameStates := [], nextRoomId := 2, conn := ["g"] }

/-- A world with one waiting room, used to exercise the fall-through path. -/
def wGuard : World :=
  { rooms := [(1, room3)], gameStates := [], nextRoomId := 2, conn := ["z"] }

theorem alGet_mem {α : Type} {k : Nat} {l : List (Nat × α)} {v : α}
    (h : alGet k l = some v) : (k, v) ∈ l := by
  induction l with
  | nil => simp [alGet] at h
  | cons p t ih =>
    rw [alGet] at h
    split at h
    · rename_i heq
      cases p
      simp_all
    · exact List.mem_cons_of_mem _ (ih h)

theorem mem_alSet {α : Type} {k : Nat} {v : α} {l : List (Nat × α)} {p : Nat × α}
    (h : p ∈ alSet k v l) : p = (k, v) ∨ p ∈ l := by
  induction l with
  | nil => simpa [alSet] using h
  | cons q t ih =>
    rw [alSet] at h
    split at h
    · rcases List.mem_cons.1 h with h1 | h1
      · exact Or.inl h1
      · exact Or.inr (List.mem_cons_of_mem _ h1)
    · rcases List.mem_cons.1 h with h1 | h1
      · exact Or.inr (h1 ▸ List.mem_cons_self _ _)
      · rcases ih h1 with h2 | h2
        · exact Or.inl h2
        · exact Or.inr (List.mem_cons_of_mem _ h2)

theorem mem_alErase {α : Type} {k : Nat} {l : List (Nat × α)} {p : Nat × α}
    (h : p ∈ alErase k l) : p ∈ l :=
  List.mem_of_mem_filter h

@[simp] theorem alGet_alSet_self {α : Type} {k : Nat} {v : α} {l : List (Nat × α)} :
    alGet k (alSet k v l) = some v := by
  induction l with
  | nil => simp [alGet, alSet]
  | cons q t ih =>
    rw [alSet]
    split
    · simp [alGet]
    · rename_i hne
      rw [alGet, if_neg hne]
      exact ih

theorem alGet_alSet_ne {α : Type} {k k' : Nat} (hne : k ≠ k') {v : α}
    {l : List (Nat × α)} : alGet k' (alSet k v l) = alGet k' l := by
  induction l with
  | nil => simp [alGet, alSet, hne]
  | cons q t ih =>
    rw [alSet]
    split
    · rename_i heq
      rw [alGet, if_neg hne, alGet, heq, if_neg hne]
    · rw [alGet, alGet]
      split
      · rfl
      · exact ih

@[simp] theorem alGet_alErase_self {α : Type} {k : Nat} {l : List (Nat × α)} :
    alGet k (alErase k l) = none := by
  induction l with
  | nil => rfl
  | cons q t ih =>
    obtain ⟨qk, qv⟩ := q
    rw [alErase, List.filter]
    split
    · rename_i hq
      rw [decide_eq_true_eq] at hq
      rw [alGet, if_neg hq]
      exact ih
    · exact ih

theorem alGet_alErase_ne {α : Type} {k k' : Nat} (hne : k ≠ k') {l : List (Nat × α)} :
    alGet k' (alErase k l) = alGet k' l := by
  induction l with
  | nil => rfl
  | cons q t ih =>
    obtain ⟨qk, qv⟩ := q
    rw [alErase, List.filter]
    split
    · rw [alGet, alGet]
      split
      · rfl
      · exact ih
    · rename_i hq
      have hk : qk = k := by simpa using hq
      rw [alGet, if_neg (by omega)]
      exact ih

@[simp] theorem swapL_length (l : List GameCard) (i j : Nat) :
    (swapL l i j).length = l.length := by
  rw [swapL]
  split <;> simp

theorem mem_swapL {l : List GameCard} {i j : Nat} {c : GameCard}
    (h : c ∈ swapL l i j) : c ∈ l := by
  rw [swapL] at h
  split at h
  · rename_i a b ha hb
    rcases List.mem_or_eq_of_mem_set h with h1 | h1
    · rcases List.mem_or_eq_of_mem_set h1 with h2 | h2
      · exact h2
      · exact h2 ▸ List.get?_mem hb
    · exact h1 ▸ List.get?_mem ha
  · exact h

theorem fisherAux_length (rnd : Nat → Nat) (n : Nat) (l : List GameCard) :
    (fisherAux rnd n l).length = l.length := by
  induction n generalizing l with
  | zero => rfl
  | succ i ih => rw [fisherAux, ih, swapL_length]

theorem mem_fisherAux {rnd : Nat → Nat} {n : Nat} {l : List GameCard} {c : GameCard}
    (h : c ∈ fisherAux rnd n l) : c ∈ l := by
  induction n generalizing l with
  | zero => exact h
  | succ i ih => exact mem_swapL (ih h)

@[simp] theorem shuffle_length (rnd : Nat → Nat) (l : List GameCard) :
    (shuffle rnd l).length = l.length :=
  fisherAux_length rnd _ l

theorem mem_shuffle {rnd : Nat → Nat} {l : List GameCard} {c : GameCard}
    (h : c ∈ shuffle rnd l) : c ∈ l :=
  mem_fisherAux h

theorem drawGo_length (fuel : Nat) (deck hand : List GameCard) :
    (drawGo fuel deck hand).1.length + (drawGo fuel deck hand).2.length
      = deck.length + hand.length := by
  induction fuel generalizing deck hand with
  | zero => rfl
  | succ f ih =>
    rw [drawGo]
    split
    · rcases deck.eq_nil_or_concat with rfl | ⟨ys, c, rfl⟩
      · rfl
      · simp only [List.concat_eq_append]
        rw [List.getLast?_concat, List.dropLast_concat]
        rw [ih]
        simp
        omega
    · rfl

theorem drawGo_mem_deck {fuel : Nat} {deck hand : List GameCard} {c : GameCard}
    (h : c ∈ (drawGo fuel deck hand).1) : c ∈ deck := by
  induction fuel generalizing deck hand with
  | zero => exact h
  | succ f ih =>
    rw [drawGo] at h
    split at h
    · rcases deck.eq_nil_or_concat with rfl | ⟨ys, d, rfl⟩
      · simp at h
      · simp only [List.concat_eq_append] at h ⊢
        rw [List.getLast?_concat, List.dropLast_concat] at h
        exact List.mem_append_left _ (ih h)
    · exact h

theorem drawGo_mem_hand {fuel : Nat} {deck hand : List GameCard} {c : GameCard}
    (h : c ∈ (drawGo fuel deck hand).2) : c ∈ deck ∨ c ∈ hand := by
  induction fuel generalizing deck hand with
  | zero => exact Or.inr h
  | succ f ih =>
    rw [drawGo] at h
    split at h
    · rcases deck.eq_nil_or_concat with rfl | ⟨ys, d, rfl⟩
      · simp at h
        exact Or.inr h
      · simp only [List.concat_eq_append] at h ⊢
        rw [List.getLast?_concat, List.dropLast_concat] at h
        rcases ih h with h1 | h1
        · exact Or.inl (List.mem_append_left _ h1)
        · rcases List.mem_append.1 h1 with h2 | h2
          · exact Or.inr h2
          · simp at h2
            subst h2
            exact Or.inl (List.mem_append_right ys (List.mem_singleton_self _))
    · exact Or.inr h

theorem drawGo_concat (f : Nat) (ys : List GameCard) (c : GameCard)
    (hand : List GameCard) (h : hand.length < 5) :
    drawGo (f + 1) (ys ++ [c]) hand = drawGo f ys (hand ++ [c]) := by
  rw [drawGo, if_pos (by simpa using h), List.getLast?_concat, List.dropLast_concat]

/-- Closed form of the draw loop: exactly `min (5 - |hand|) |deck|` cards
move from the tail of the deck to the end of the hand, in reverse order. -/
theorem drawGo_closed (fuel : Nat) (deck hand : List GameCard)
    (hf : deck.length ≤ fuel) :
    drawGo fuel deck hand =
      (deck.take (deck.length - min (5 - hand.length) deck.length),
       hand ++ (deck.drop (deck.length - min (5 - hand.length) deck.length)).reverse) := by
  induction fuel generalizing deck hand with
  | zero =>
    rw [Nat.le_zero] at hf
    rw [List.length_eq_zero] at hf
    subst hf
    simp [drawGo]
  | succ f ih =>
    by_cases hlt : hand.length < 5
    · rcases deck.eq_nil_or_concat with rfl | ⟨ys, c, rfl⟩
      · simp [drawGo]
      · simp only [List.concat_eq_append] at hf ⊢
        rw [drawGo_concat f ys c hand hlt]
        rw [ih ys (hand ++ [c]) (by simp at hf; omega)]
        have hlen : (ys ++ [c]).length = ys.length + 1 := by simp
        have hhand : (hand ++ [c]).length = hand.length + 1 := by simp
        have hmin : (ys ++ [c]).length - min (5 - hand.length) (ys ++ [c]).length
            = ys.length - min (5 - (hand ++ [c]).length) ys.length := by
          rw [hlen, hhand]
          omega
        have hidx : ys.length - min (5 - (hand ++ [c]).length) ys.length ≤ ys.length := by
          omega
        rw [Prod.mk.injEq]
        constructor
        · rw [hmin, List.take_append_of_le_length hidx]
        · rw [hmin, List.drop_append_of_le_length hidx]
          simp
    · have hmin : min (5 - hand.length) deck.length = 0 := by omega
      rw [drawGo, if_neg hlt]
      simp [hmin]

theorem mem_alErase_ne {α : Type} {k : Nat} {l : List (Nat × α)} {p : Nat × α}
    (h : p ∈ alErase k l) : p ∈ l ∧ p.1 ≠ k := by
  have := List.mem_filter.1 h
  exact ⟨this.1, by simpa using this.2⟩

theorem roomConn_mono {conn conn2 : List String}
    (hsub : ∀ x ∈ conn, x ∈ conn2) {room : MatchmakingRoom}
    (h : RoomConn conn room) : RoomConn conn2 room :=
  ⟨hsub _ h.1, fun g hg => hsub _ (h.2 g hg)⟩

theorem inv_runCreateRoom (self : SocketInfo) (deckId : Nat)
    (deckRes : Option Deck) (w : World) (hw : WInv w)
    (hself : self.sid ∈ w.conn) :
    WInv (runCreateRoom self deckId deckRes w).1 := by
  rw [runCreateRoom.eq_def]
  split
  · exact hw
  · split
    · exact hw
    · split
      · exact hw
      · refine ⟨?_, hw.2⟩
        intro p hp
        rcases mem_alSet hp with rfl | hp2
        · exact ⟨hself, fun g hg => by simp at hg⟩
        · exact hw.1 p hp2

theorem inv_runEndTurn (self : SocketInfo) (roomId : Nat) (w : World)
    (hw : WInv w) : WInv (runEndTurn self roomId w).1 := by
  rw [runEndTurn.eq_def]
  split
  · rename_i room state hroom hstate
    split
    · exact hw
    · split
      · exact hw
      · refine ⟨hw.1, ?_⟩
        intro q hq
        rcases mem_alSet hq with rfl | hq2
        · have hs := hw.2 _ (alGet_mem hstate)
          exact hs
        · exact hw.2 q hq2
  · exact hw

theorem inv_runDisconnect (sid : String) (w : World) (hw : WInv w) :
    WInv (runDisconnect sid w).1 := by
  constructor
  · intro p hp
    have hmem := List.mem_filter.1 hp
    have hconn := hw.1 p hmem.1
    have hns : roomHasSocket sid p.2 = false := by simpa using hmem.2
    rw [roomHasSocket] at hns
    simp only [Bool.or_eq_false_iff, decide_eq_false_iff_not] at hns
    constructor
    · exact List.mem_filter.2 ⟨hconn.1, by simpa using hns.1⟩
    · intro g hg
      refine List.mem_filter.2 ⟨hconn.2 g hg, ?_⟩
      simp only [Bool.not_eq_true', decide_eq_false_iff_not]
      intro hgs
      exact hns.2 (hgs ▸ hg)
  · intro q hq
    exact hw.2 q (List.mem_filter.1 hq).1

theorem hppos_runDisconnect (sid : String) (w : World)
    (hw : ∀ q ∈ w.gameStates, HpPos q.2) :
    ∀ q ∈ (runDisconnect sid w).1.gameStates, HpPos q.2 := by
  intro q hq
  exact hw q (List.mem_filter.1 hq).1

theorem hppos_runEndTurn (self : SocketInfo) (roomId : Nat) (w : World)
    (hw : ∀ q ∈ w.gameStates, HpPos q.2) :
    ∀ q ∈ (runEndTurn self roomId w).1.gameStates, HpPos q.2 := by
  rw [runEndTurn.eq_def]
  split
  · rename_i room state hroom hstate
    split
    · exact hw
    · split
      · exact hw
      · intro q hq
        rcases mem_alSet hq with rfl | hq2
        · have hs := hw _ (alGet_mem hstate)
          exact hs
        · exact hw q hq2
  · exact hw

theorem winv_runJoinRoom (self : SocketInfo) (roomId deckId : Nat)
    (deckRes hostDeckRes : Option Deck) (rndHost rndGuest : Nat → Nat)
    (w : World) (hw : WInv w) (hself : self.sid ∈ w.conn) :
    WInv (runJoinRoom self roomId deckId deckRes hostDeckRes rndHost rndGuest w).1 := by
  rw [runJoinRoom.eq_def]
  split
  · exact hw
  · rename_i room hroom
    split
    · exact hw
    · split
      · exact hw
      · rename_i deck
        split
        · exact hw
        · split
          · exact hw
          · rename_i hglen
            split
            · refine ⟨?_, hw.2⟩
              intro p hp
              exact hw.1 p (mem_alErase hp)
            · rename_i hhostconn
              split
              · refine ⟨?_, hw.2⟩
                intro p hp
                rcases mem_alSet hp with rfl | hp2
                · refine ⟨not_not.1 hhostconn, fun g hg => ?_⟩
                  simp at hg
                  exact hg ▸ hself
                · exact hw.1 p hp2
              · rename_i hostDeckData
                split
                · rename_i hlen10
                  refine ⟨?_, hw.2⟩
                  intro p hp
                  rcases mem_alSet hp with rfl | hp2
                  · refine ⟨not_not.1 hhostconn, fun g hg => ?_⟩
                    simp at hg
                    exact hg ▸ hself
                  · exact hw.1 p hp2
                · rename_i hlen10
                  constructor
                  · intro p hp
                    rcases mem_alSet hp with rfl | hp2
                    · refine ⟨not_not.1 hhostconn, fun g hg => ?_⟩
                      simp at hg
                      exact hg ▸ hself
                    · exact hw.1 p hp2
                  · intro q hq
                    rcases mem_alSet hq with rfl | hq2
                    · have h1 : hostDeckData.cards.length = 10 := not_not.1 hlen10
                      have h2 : deck.cards.length = 10 := not_not.1 hglen
                      simp [SInv, shuffle_length, h1, h2]
                    · exact hw.2 q hq2

theorem hppos_runJoinRoom (self : SocketInfo) (roomId deckId : Nat)
    (deckRes hostDeckRes : Option Deck) (rndHost rndGuest : Nat → Nat)
    (w : World) (hw : ∀ q ∈ w.gameStates, HpPos q.2)
    (hpos1 : deckPos deckRes) (hpos2 : deckPos hostDeckRes) :
    ∀ q ∈ (runJoinRoom self roomId deckId deckRes hostDeckRes rndHost
      rndGuest w).1.gameStates, HpPos q.2 := by
  rw [runJoinRoom.eq_def]
  split
  · exact hw
  · rename_i room hroom
    split
    · exact hw
    · split
      · exact hw
      · rename_i deck
        split
        · exact hw
        · split
          · exact hw
          · split
            · exact hw
            · split
              · exact hw
              · rename_i hostDeckData
                split
                · exact hw
                · intro q hq
                  rcases mem_alSet hq with rfl | hq2
                  · refine ⟨?_, ?_, ?_, ?_, ?_, ?_⟩
                    · intro c hc
                      exact hpos2 c (mem_shuffle hc)
                    · intro c hc
                      simp at hc
                    · intro c hc
                      simp at hc
                    · intro c hc
                      exact hpos1 c (mem_shuffle hc)
                    · intro c hc
                      simp at hc
                    · intro c hc
                      simp at hc
                  · exact hw q hq2

theorem winv_runDrawCards (self : SocketInfo) (roomId : Nat) (w : World)
    (hw : WInv w) : WInv (runDrawCards self roomId w).1 := by
  rw [runDrawCards.eq_def]
  split
  · rename_i room state hroom hstate
    split
    · exact hw
    · split
      · exact hw
      · refine ⟨hw.1, ?_⟩
        intro q hq
        rcases mem_alSet hq with rfl | hq2
        · have hs : SInv state := hw.2 _ (alGet_mem hstate)
          obtain ⟨h1, h2, h3, h4⟩ := hs
          dsimp only
          split
          · have hlen := drawGo_length state.hostDeck.length state.hostDeck state.hostHand
            rw [SInv]
            dsimp only
            simp only [drawLoop]
            exact ⟨h1, h2, by omega, h4⟩
          · have hlen := drawGo_length state.guestDeck.length state.guestDeck state.guestHand
            rw [SInv]
            dsimp only
            simp only [drawLoop]
            exact ⟨h1, h2, h3, by omega⟩
        · exact hw.2 q hq2
  · exact hw

theorem hppos_runDrawCards (self : SocketInfo) (roomId : Nat) (w : World)
    (hw : ∀ q ∈ w.gameStates, HpPos q.2) :
    ∀ q ∈ (runDrawCards self roomId w).1.gameStates, HpPos q.2 := by
  rw [runDrawCards.eq_def]
  split
  · rename_i room state hroom hstate
    split
    · exact hw
    · split
      · exact hw
      · intro q hq
        rcases mem_alSet hq with rfl | hq2
        · have hs := hw _ (alGet_mem hstate)
          obtain ⟨p1, p2, p3, p4, p5, p6⟩ := hs
          rw [HpPos]
          split
          · refine ⟨?_, ?_, p3, p4, p5, p6⟩
            · intro c hc
              exact p1 c (drawGo_mem_deck hc)
            · intro c hc
              rcases drawGo_mem_hand hc with h | h
              · exact p1 c h
              · exact p2 c h
          · refine ⟨p1, p2, p3, ?_, ?_, p6⟩
            · intro c hc
              exact p4 c (drawGo_mem_deck hc)
            · intro c hc
              rcases drawGo_mem_hand hc with h | h
              · exact p4 c h
              · exact p5 c h
        · exact hw q hq2
  · exact hw

theorem winv_runPlayCard (self : SocketInfo) (roomId : Nat) (cardIndex : Int)
    (w : World) (hw : WInv w) : WInv (runPlayCard self roomId cardIndex w).1 := by
  rw [runPlayCard.eq_def]
  split
  · exact hw
  · split
    · rename_i room state hroom hstate
      split
      · exact hw
      · split
        · exact hw
        · split
          · -- host side
            split
            · exact hw
            · rename_i hact
              split
              · rename_i hidx
                refine ⟨hw.1, ?_⟩
                intro q hq
                rcases mem_alSet hq with rfl | hq2
                · have hs : SInv state := hw.2 _ (alGet_mem hstate)
                  obtain ⟨h1, h2, h3, h4⟩ := hs
                  rw [SInv]
                  dsimp only
                  rw [List.length_eraseIdx_of_lt hidx]
                  rw [hact] at h3
                  simp at h3 ⊢
                  omega
                · exact hw.2 q hq2
              · exact hw
          · -- guest side
            split
            · exact hw
            · rename_i hact
              split
              · rename_i hidx
                refine ⟨hw.1, ?_⟩
                intro q hq
                rcases mem_alSet hq with rfl | hq2
                · have hs : SInv state := hw.2 _ (alGet_mem hstate)
                  obtain ⟨h1, h2, h3, h4⟩ := hs
                  rw [SInv]
                  dsimp only
                  rw [List.length_eraseIdx_of_lt hidx]
                  rw [hact] at h4
                  simp at h4 ⊢
                  omega
                · exact hw.2 q hq2
              · exact hw
    · exact hw

theorem hppos_runPlayCard (self : SocketInfo) (roomId : Nat) (cardIndex : Int)
    (w : World) (hw : ∀ q ∈ w.gameStates, HpPos q.2) :
    ∀ q ∈ (runPlayCard self roomId cardIndex w).1.gameStates, HpPos q.2 := by
  rw [runPlayCard.eq_def]
  split
  · exact hw
  · split
    · rename_i room state hroom hstate
      split
      · exact hw
      · split
        · exact hw
        · split
          · split
            · exact hw
            · split
              · rename_i hidx
                intro q hq
                rcases mem_alSet hq with rfl | hq2
                · have hs : HpPos state := hw _ (alGet_mem hstate)
                  obtain ⟨p1, p2, p3, p4, p5, p6⟩ := hs
                  rw [HpPos]
                  dsimp only
                  refine ⟨p1, ?_, ?_, p4, p5, p6⟩
                  · intro c hc
                    exact p2 c (List.mem_of_mem_eraseIdx hc)
                  · intro c hc
                    obtain rfl := Option.some.inj hc
                    exact p2 _ (state.hostHand.get_mem _ _)
                · exact hw q hq2
              · exact hw
          · split
            · exact hw
            · split
              · rename_i hidx
                intro q hq
                rcases mem_alSet hq with rfl | hq2
                · have hs : HpPos state := hw _ (alGet_mem hstate)
                  obtain ⟨p1, p2, p3, p4, p5, p6⟩ := hs
                  rw [HpPos]
                  dsimp only
                  refine ⟨p1, p2, p3, p4, ?_, ?_⟩
                  · intro c hc
                    exact p5 c (List.mem_of_mem_eraseIdx hc)
                  · intro c hc
                    obtain rfl := Option.some.inj hc
                    exact p5 _ (state.guestHand.get_mem _ _)
                · exact hw q hq2
              · exact hw
    · exact hw

theorem sinv_attackResolve (room : MatchmakingRoom) (g : String)
    (self : SocketInfo) (state : GameState) (atk dfd : GameCard)
    (hs : SInv state)
    (hdfd : (if self.sid = room.hostSocketId then state.guestActive
             else state.hostActive) = some dfd)
    (hb1 : (attackResolve room g self state atk dfd).hostScore ≤ 2)
    (hb2 : (attackResolve room g self state atk dfd).guestScore ≤ 2) :
    SInv (attackResolve room g self state atk dfd) := by
  obtain ⟨h1, h2, h3, h4⟩ := hs
  rw [attackResolve] at hb1 hb2 ⊢
  dsimp only at hb1 hb2 ⊢
  rw [SInv]
  split
  · rename_i hko
    rw [if_pos hko] at hb1 hb2
    split
    · rename_i hsid
      rw [if_pos hsid] at hb1 hb2
      dsimp only at hb1 hb2
      rw [if_pos hsid] at hdfd
      rw [hdfd] at h4
      simp at h4 ⊢
      exact ⟨by omega, h2, h3, by omega⟩
    · rename_i hsid
      rw [if_neg hsid] at hb1 hb2
      dsimp only at hb1 hb2
      rw [if_neg hsid] at hdfd
      rw [hdfd] at h3
      simp at h3 ⊢
      exact ⟨h1, by omega, by omega, h4⟩
  · rename_i hko
    split
    · rename_i hsid
      rw [if_pos hsid] at hdfd
      rw [hdfd] at h4
      simp at h4 ⊢
      exact ⟨h1, h2, h3, by omega⟩
    · rename_i hsid
      rw [if_neg hsid] at hdfd
      rw [hdfd] at h3
      simp at h3 ⊢
      exact ⟨h1, h2, by omega, h4⟩

theorem hppos_attackResolve (room : MatchmakingRoom) (g : String)
    (self : SocketInfo) (state : GameState) (atk dfd : GameCard)
    (hp : HpPos state) :
    HpPos (attackResolve room g self state atk dfd) := by
  obtain ⟨p1, p2, p3, p4, p5, p6⟩ := hp
  rw [attackResolve]
  try dsimp only
  rw [HpPos]
  split
  · split
    · exact ⟨p1, p2, p3, p4, p5, by intro c hc; simp at hc⟩
    · exact ⟨p1, p2, by intro c hc; simp at hc, p4, p5, p6⟩
  · rename_i hko
    split
    · refine ⟨p1, p2, p3, p4, p5, ?_⟩
      intro c hc
      obtain rfl := Option.some.inj hc
      show (1 : Int) ≤ dfd.hp - calculateDamage atk.attack atk.ptype dfd.ptype
      omega
    · refine ⟨p1, p2, ?_, p4, p5, p6⟩
      intro c hc
      obtain rfl := Option.some.inj hc
      show (1 : Int) ≤ dfd.hp - calculateDamage atk.attack atk.ptype dfd.ptype
      omega

theorem winv_runAttack (self : SocketInfo) (roomId : Nat) (w : World)
    (hw : WInv w) : WInv (runAttack self roomId w).1 := by
  rw [runAttack.eq_def]
  split
  · rename_i room state hroom hstate
    split
    · exact hw
    · rename_i g hg
      split
      · exact hw
      · split
        · exact hw
        · rename_i atk hatk
          split
          · exact hw
          · rename_i dfd hdfd
            have hrc := hw.1 _ (alGet_mem hroom)
            dsimp only
            split
            · split
              · refine ⟨hw.1, ?_⟩
                intro q hq
                obtain ⟨hq1, hqne⟩ := mem_alErase_ne hq
                rcases mem_alSet hq1 with rfl | hq2
                · exact absurd rfl hqne
                · exact hw.2 q hq2
              · split
                · refine ⟨hw.1, ?_⟩
                  intro q hq
                  obtain ⟨hq1, hqne⟩ := mem_alErase_ne hq
                  rcases mem_alSet hq1 with rfl | hq2
                  · exact absurd rfl hqne
                  · exact hw.2 q hq2
                · rename_i hns1 hns2
                  refine ⟨hw.1, ?_⟩
                  intro q hq
                  rcases mem_alSet hq with rfl | hq2
                  · exact sinv_attackResolve room g self state atk dfd
                      (hw.2 _ (alGet_mem hstate)) hdfd (by omega) (by omega)
                  · exact hw.2 q hq2
            · rename_i hnc
              exact absurd ⟨hrc.1, hrc.2 g hg⟩ hnc
  · exact hw

theorem hppos_runAttack (self : SocketInfo) (roomId : Nat) (w : World)
    (hw : ∀ q ∈ w.gameStates, HpPos q.2) :
    ∀ q ∈ (runAttack self roomId w).1.gameStates, HpPos q.2 := by
  rw [runAttack.eq_def]
  split
  · rename_i room state hroom hstate
    split
    · exact hw
    · rename_i g hg
      split
      · exact hw
      · split
        · exact hw
        · rename_i atk hatk
          split
          · exact hw
          · rename_i dfd hdfd
            dsimp only
            split
            · split
              · intro q hq
                obtain ⟨hq1, hqne⟩ := mem_alErase_ne hq
                rcases mem_alSet hq1 with rfl | hq2
                · exact absurd rfl hqne
                · exact hw q hq2
              · split
                · intro q hq
                  obtain ⟨hq1, hqne⟩ := mem_alErase_ne hq
                  rcases mem_alSet hq1 with rfl | hq2
                  · exact absurd rfl hqne
                  · exact hw q hq2
                · intro q hq
                  rcases mem_alSet hq with rfl | hq2
                  · exact hppos_attackResolve room g self state atk dfd
                      (hw _ (alGet_mem hstate))
                  · exact hw q hq2
            · intro q hq
              rcases mem_alSet hq with rfl | hq2
              · exact hppos_attackResolve room g self state atk dfd
                  (hw _ (alGet_mem hstate))
              · exact hw q hq2
  · exact hw

theorem gameStates_runCreateRoom (self : SocketInfo) (deckId : Nat)
    (deckRes : Option Deck) (w : World) :
    (runCreateRoom self deckId deckRes w).1.gameStates = w.gameStates := by
  rw [runCreateRoom.eq_def]
  split
  · rfl
  · split
    · rfl
    · split
      · rfl
      · rfl

theorem winv_runEv (w : World) (e : Ev) (hw : WInv w) : WInv (runEv w e).1 := by
  cases e with
  | connect sid =>
    refine ⟨?_, hw.2⟩
    intro p hp
    exact roomConn_mono (fun x hx => List.mem_cons_of_mem _ hx) (hw.1 p hp)
  | disconnect sid => exact inv_runDisconnect sid w hw
  | getRooms self =>
    rw [runEv]
    split
    · exact hw
    · exact hw
  | createRoom self deckId deckRes =>
    rw [runEv]
    split
    · exact inv_runCreateRoom self deckId deckRes w hw (by assumption)
    · exact hw
  | joinRoom self roomId deckId deckRes hostDeckRes rndHost rndGuest =>
    rw [runEv]
    split
    · exact winv_runJoinRoom self roomId deckId deckRes hostDeckRes rndHost
        rndGuest w hw (by assumption)
    · exact hw
  | drawCards self roomId =>
    rw [runEv]
    split
    · exact winv_runDrawCards self roomId w hw
    · exact hw
  | playCard self roomId cardIndex =>
    rw [runEv]
    split
    · exact winv_runPlayCard self roomId cardIndex w hw
    · exact hw
  | attack self roomId =>
    rw [runEv]
    split
    · exact winv_runAttack self roomId w hw
    · exact hw
  | endTurn self roomId =>
    rw [runEv]
    split
    · exact inv_runEndTurn self roomId w hw
    · exact hw

theorem hppos_runEv (w : World) (e : Ev)
    (hw : ∀ q ∈ w.gameStates, HpPos q.2) (hpos : posCardsEv e) :
    ∀ q ∈ (runEv w e).1.gameStates, HpPos q.2 := by
  cases e with
  | connect sid => exact hw
  | disconnect sid => exact hppos_runDisconnect sid w hw
  | getRooms self =>
    rw [runEv]
    split
    · exact hw
    · exact hw
  | createRoom self deckId deckRes =>
    rw [runEv]
    split
    · rw [gameStates_runCreateRoom]
      exact hw
    · exact hw
  | joinRoom self roomId deckId deckRes hostDeckRes rndHost rndGuest =>
    rw [runEv]
    split
    · exact hppos_runJoinRoom self roomId deckId deckRes hostDeckRes rndHost
        rndGuest w hw hpos.1 hpos.2
    · exact hw
  | drawCards self roomId =>
    rw [runEv]
    split
    · exact hppos_runDrawCards self roomId w hw
    · exact hw
  | playCard self roomId cardIndex =>
    rw [runEv]
    split
    · exact hppos_runPlayCard self roomId cardIndex w hw
    · exact hw
  | attack self roomId =>
    rw [runEv]
    split
    · exact hppos_runAttack self roomId w hw
    · exact hw
  | endTurn self roomId =>
    rw [runEv]
    split
    · exact hppos_runEndTurn self roomId w hw
    · exact hw

theorem winv_initWorld : WInv initWorld := by
  constructor
  · intro p hp
    simp [initWorld] at hp
  · intro q hq
    simp [initWorld] at hq

theorem winv_reach {w : World} (h : Reach w) : WInv w := by
  induction h with
  | refl => exact winv_initWorld
  | tail h1 h2 ih =>
    obtain ⟨e, he⟩ := h2
    exact he ▸ winv_runEv _ e ih

theorem invpos_reachPos {w : World} (h : ReachPos w) : InvPos w := by
  induction h with
  | refl =>
    refine ⟨winv_initWorld, ?_⟩
    intro q hq
    simp [initWorld] at hq
  | tail h1 h2 ih =>
    obtain ⟨e, hpos, he⟩ := h2
    exact he ▸ ⟨winv_runEv _ e ih.1, hppos_runEv _ e ih.2 hpos⟩

theorem reach_step {w : World} (h : Reach w) (e : Ev) :
    Reach (runEv w e).1 :=
  Relation.ReflTransGen.tail h ⟨e, rfl⟩

theorem attackResolve_score_le (room : MatchmakingRoom) (g : String)
    (self : SocketInfo) (state : GameState) (atk dfd : GameCard) :
    (attackResolve room g self state atk dfd).hostScore ≤ state.hostScore + 1 ∧
    (attackResolve room g self state atk dfd).guestScore ≤ state.guestScore + 1 := by
  rw [attackResolve]
  dsimp only
  split
  · split
    · exact ⟨by dsimp only; omega, by dsimp only; omega⟩
    · exact ⟨by dsimp only; omega, by dsimp only; omega⟩
  · split
    · exact ⟨by dsimp only; omega, by dsimp only; omega⟩
    · exact ⟨by dsimp only; omega, by dsimp only; omega⟩

theorem reachPos_step {w : World} (h : ReachPos w) (e : Ev)
    (hp : posCardsEv e) : ReachPos (runEv w e).1 :=
  Relation.ReflTransGen.tail h ⟨e, hp, rfl⟩

theorem reachPos_reach {w : World} (h : ReachPos w) : Reach w := by
  induction h with
  | refl => exact Relation.ReflTransGen.refl
  | tail h1 h2 ih =>
    obtain ⟨e, _, he⟩ := h2
    exact Relation.ReflTransGen.tail ih ⟨e, he⟩

theorem reachPos_w6 : ReachPos w6 :=
  reachPos_step (reachPos_step (reachPos_step (reachPos_step (reachPos_step
    (reachPos_step Relation.ReflTransGen.refl (Ev.connect "h") trivial)
    (Ev.connect "g") trivial)
    (Ev.createRoom hostSock 1 (some sampleDeckH)) trivial)
    (Ev.joinRoom guestSock 1 2 (some sampleDeckG) (some sampleDeckH) id id)
    ⟨(by decide : ∀ c ∈ sampleDeckG.cards, 1 ≤ c.hp),
     (by decide : ∀ c ∈ sampleDeckH.cards, 1 ≤ c.hp)⟩)
    (Ev.drawCards hostSock 1) trivial)
    (Ev.playCard hostSock 1 0) trivial

theorem reach_w6 : Reach w6 := reachPos_reach reachPos_w6

/-- C4: in every reachable world, every live game state conserves cards:
for each player, deck + hand + (1 if an active card is on the board) +
the opponent's score (knockouts suffered) equals the 10-card starting
deck — so after every successful `drawCards`, `playCard`, `attack` or
`endTurn` on an in-game room the equation still holds. -/
theorem claim_c4_conservation (w : World) (hw : Reach w) (rid : Nat)
    (s : GameState) (hs : alGet rid w.gameStates = some s) :
    s.hostDeck.length + s.hostHand.length
      + (if s.hostActive.isSome then 1 else 0) + s.guestScore = 10 ∧
    s.guestDeck.length + s.guestHand.length
      + (if s.guestActive.isSome then 1 else 0) + s.hostScore = 10 := by
  have h := (winv_reach hw).2 _ (alGet_mem hs)
  exact ⟨h.2.2.1, h.2.2.2⟩

/-- Witness for C4 at a concrete reachable world (after draw and play). -/
theorem claim_c4_witness :
    sampleState6.hostDeck.length + sampleState6.hostHand.length
      + (if sampleState6.hostActive.isSome then 1 else 0) + sampleState6.guestScore = 10 ∧
    sampleState6.guestDeck.length + sampleState6.guestHand.length
      + (if sampleState6.guestActive.isSome then 1 else 0) + sampleState6.hostScore = 10 :=
  claim_c4_conservation w6 reach_w6 1 sampleState6 (by decide)

/-- C9: provided every card enters the game with `hp ≥ 1` (positive-hp
deck oracles), in every reachable world any non-null active card has
`hp ≥ 1`: the attack handler clears an active in the same step in which
its hp drops to 0 or below. -/
theorem claim_c9_active_hp_positive (w : World) (hw : ReachPos w) (rid : Nat)
    (s : GameState) (hs : alGet rid w.gameStates = some s) :
    (∀ c, s.hostActive = some c → 1 ≤ c.hp) ∧
    (∀ c, s.guestActive = some c → 1 ≤ c.hp) := by
  have h := (invpos_reachPos hw).2 _ (alGet_mem hs)
  exact ⟨h.2.2.1, h.2.2.2.2.2⟩

/-- Witness for C9: in `w6` the host's active card is `card 9`, `hp = 5 ≥ 1`. -/
theorem claim_c9_witness :
    sampleState6.hostActive = some (card 9) ∧ 1 ≤ (card 9).hp :=
  ⟨by decide,
   (claim_c9_active_hp_positive w6 reachPos_w6 1 sampleState6 (by decide)).1
     (card 9) (by decide)⟩

theorem runAttack_delete_gameEnded (self : SocketInfo) (rid : Nat) (w : World)
    (hw : WInv w) (room : MatchmakingRoom) (s : GameState)
    (hroom : alGet rid w.rooms = some room)
    (hstate : alGet rid w.gameStates = some s)
    (hdel : alGet rid (runAttack self rid w).1.gameStates = none) :
    ∃ g, room.guestSocketId = some g ∧
      ∃ winner hsc gsc, (hsc = 3 ∨ gsc = 3) ∧
        winner = (if hsc ≥ 3 then room.hostSocketId else g) ∧
        (runAttack self rid w).2 =
          [Output.gameEnded room.hostSocketId rid winner hsc gsc,
           Output.gameEnded g rid winner hsc gsc] := by
  have hs : SInv s := hw.2 _ (alGet_mem hstate)
  rw [runAttack.eq_def] at hdel ⊢
  simp only [hroom, hstate] at hdel ⊢
  split at hdel
  · rw [hstate] at hdel
    exact absurd hdel (by simp)
  · rename_i g heqg
    split at hdel
    · rw [hstate] at hdel
      exact absurd hdel (by simp)
    · rename_i hturn
      split at hdel
      · rw [hstate] at hdel
        exact absurd hdel (by simp)
      · rename_i atk hatk
        split at hdel
        · rw [hstate] at hdel
          exact absurd hdel (by simp)
        · rename_i dfd hdfd
          split at hdel
          · rename_i hconn
            split at hdel
            · rename_i hwin
              have hle := attackResolve_score_le room g self s atk dfd
              have h3 : (attackResolve room g self s atk dfd).hostScore = 3 := by
                obtain ⟨hb1, hb2, _, _⟩ := hs
                omega
              refine ⟨g, heqg, room.hostSocketId,
                (attackResolve room g self s atk dfd).hostScore,
                (attackResolve room g self s atk dfd).guestScore,
                Or.inl h3, (if_pos hwin).symm, ?_⟩
              simp only [heqg, if_neg hturn, hatk, hdfd, if_pos hconn, if_pos hwin]
            · rename_i hns1
              split at hdel
              · rename_i hwin
                have hle := attackResolve_score_le room g self s atk dfd
                have h3 : (attackResolve room g self s atk dfd).guestScore = 3 := by
                  obtain ⟨hb1, hb2, _, _⟩ := hs
                  omega
                refine ⟨g, heqg, g,
                  (attackResolve room g self s atk dfd).hostScore,
                  (attackResolve room g self s atk dfd).guestScore,
                  Or.inr h3, (if_neg hns1).symm, ?_⟩
                simp only [heqg, if_neg hturn, hatk, hdfd, if_pos hconn,
                  if_neg hns1, if_pos hwin]
              · rw [alGet_alSet_self] at hdel
                exact absurd hdel (by simp)
          · rw [alGet_alSet_self] at hdel
            exact absurd hdel (by simp)

theorem reach_v16 : Reach v16 :=
  reach_step (reach_step (reach_step (reach_step (reach_step (reach_step
    (reach_step (reach_step (reach_step (reach_step (reach_step (reach_step
      (reach_step (reach_step (reach_step (reach_step
        Relation.ReflTransGen.refl
        (Ev.connect "h")) (Ev.connect "g"))
        (Ev.createRoom hostSock 1 (some sampleDeckH)))
        (Ev.joinRoom guestSock 1 2 (some sampleDeckG2) (some sampleDeckH) id id))
        (Ev.drawCards hostSock 1)) (Ev.playCard hostSock 1 0))
        (Ev.endTurn hostSock 1)) (Ev.drawCards guestSock 1))
        (Ev.playCard guestSock 1 0)) (Ev.endTurn guestSock 1))
        (Ev.attack hostSock 1)) (Ev.playCard guestSock 1 0))
        (Ev.endTurn guestSock 1)) (Ev.attack hostSock 1))
        (Ev.playCard guestSock 1 0)) (Ev.endTurn guestSock 1)

/-- C3: in every reachable world (i) all live scores lie in [0, 3]
(being `Nat`s they are ≥ 0; the invariant bounds them by 3); (ii) a game
state that survives any further event has both scores strictly below 3 —
the instant a score reaches 3 the state is deleted in that same step; and
(iii) whenever an `attack` deletes the game state, a `gameEnded` event
carrying the room id, the winner's socket id and both final scores (one
of them 3) is emitted to both players' sockets. -/
theorem claim_c3_scores_terminate (w : World) (hw : Reach w) :
    (∀ rid s, alGet rid w.gameStates = some s →
      s.hostScore ≤ 3 ∧ s.guestScore ≤ 3) ∧
    (∀ (e : Ev) rid s, alGet rid (runEv w e).1.gameStates = some s →
      s.hostScore < 3 ∧ s.guestScore < 3) ∧
    (∀ (self : SocketInfo) rid room s,
      alGet rid w.rooms = some room →
      alGet rid w.gameStates = some s →
      alGet rid (runEv w (Ev.attack self rid)).1.gameStates = none →
      ∃ g, room.guestSocketId = some g ∧
        ∃ winner hsc gsc, (hsc = 3 ∨ gsc = 3) ∧
          winner = (if hsc ≥ 3 then room.hostSocketId else g) ∧
          (runEv w (Ev.attack self rid)).2 =
            [Output.gameEnded room.hostSocketId rid winner hsc gsc,
             Output.gameEnded g rid winner hsc gsc]) := by
  refine ⟨?_, ?_, ?_⟩
  · intro rid s hsg
    have h : SInv s := (winv_reach hw).2 _ (alGet_mem hsg)
    obtain ⟨h1, h2, _, _⟩ := h
    exact ⟨by omega, by omega⟩
  · intro e rid s hsg
    have h : SInv s := (winv_reach (reach_step hw e)).2 _ (alGet_mem hsg)
    obtain ⟨h1, h2, _, _⟩ := h
    exact ⟨by omega, by omega⟩
  · intro self rid room s hroom hstate hdel
    rw [runEv] at hdel ⊢
    split at hdel
    · rename_i hconn
      rw [if_pos hconn]
      exact runAttack_delete_gameEnded self rid w (winv_reach hw) room s
        hroom hstate hdel
    · rw [hstate] at hdel
      exact absurd hdel (by simp)

/-- Witness for C3: in the scripted match, the decisive attack deletes
the game state and emits `gameEnded` to both players with scores 3-0. -/
theorem claim_c3_witness :
    alGet 1 (runEv v16 (Ev.attack hostSock 1)).1.gameStates = none ∧
    ∃ g, room16.guestSocketId = some g ∧
      ∃ winner hsc gsc, (hsc = 3 ∨ gsc = 3) ∧
        winner = (if hsc ≥ 3 then room16.hostSocketId else g) ∧
        (runEv v16 (Ev.attack hostSock 1)).2 =
          [Output.gameEnded room16.hostSocketId 1 winner hsc gsc,
           Output.gameEnded g 1 winner hsc gsc] :=
  ⟨by decide,
   (claim_c3_scores_terminate v16 reach_v16).2.2 hostSock 1 room16 state16
     (by decide) (by decide) (by decide)⟩

/-- C5: the `gameStateUpdated` view built for a recipient exposes the
opponent only through active card, deck count and score: two game states
that differ only in the opponent's hand or deck contents (same deck
length) produce identical views, so the opponent's hand and deck contents
never appear in an outbound view. -/
theorem claim_c5_view_noninterference (roomId : Nat) (role : Role)
    (s t : GameState) (h : AgreeExceptOppPrivate role s t) :
    buildGameStateView roomId t role = buildGameStateView roomId s role := by
  cases role with
  | host =>
    obtain ⟨h1, h2, h3, h4, h5, h6, h7, h8⟩ := h
    simp only [buildGameStateView, GameStateView.mk.injEq]
    exact ⟨trivial, h2, h3, by rw [h1], h4, h6, h5, h7, h8⟩
  | guest =>
    obtain ⟨h1, h2, h3, h4, h5, h6, h7, h8⟩ := h
    simp only [buildGameStateView, GameStateView.mk.injEq]
    exact ⟨trivial, h2, h3, by rw [h1], h4, h6, h5, h7, h8⟩

/-- Witness for C5 at two concrete states. -/
theorem claim_c5_witness :
    AgreeExceptOppPrivate Role.host stateA stateB ∧
    buildGameStateView 1 stateB Role.host = buildGameStateView 1 stateA Role.host :=
  ⟨⟨rfl, rfl, rfl, rfl, rfl, rfl, rfl, rfl⟩,
   claim_c5_view_noninterference 1 Role.host stateA stateB
     ⟨rfl, rfl, rfl, rfl, rfl, rfl, rfl, rfl⟩⟩

theorem drawClosed_final (deck hand : List GameCard) (h5 : hand.length ≤ 5) :
    (hand ++ (deck.drop (deck.length - min (5 - hand.length) deck.length)).reverse).length = 5
    ∨ deck.take (deck.length - min (5 - hand.length) deck.length) = [] := by
  by_cases h : deck.length ≤ 5 - hand.length
  · right
    have hm : min (5 - hand.length) deck.length = deck.length := by omega
    simp [hm]
  · left
    have hm : min (5 - hand.length) deck.length = 5 - hand.length := by omega
    simp [hm]
    omega

/-- C6: a `drawCards` request from the current player of an in-game room
moves cards from the tail of their deck to the end of their hand (keeping
the existing hand prefix intact, the moved cards in reverse deck order)
until the hand holds 5 cards or the deck is empty, and changes nothing
else: the resulting world differs only in that room's game state, and the
state record update touches only the actor's deck and hand — the
opponent's zones, both actives, both scores and `currentPlayerSocketId`
are those of the old state, so the turn does not advance. -/
theorem claim_c6_drawCards (self : SocketInfo) (roomId : Nat) (w : World)
    (room : MatchmakingRoom) (s : GameState) (g : String)
    (hconn : self.sid ∈ w.conn)
    (hroom : alGet roomId w.rooms = some room)
    (hstate : alGet roomId w.gameStates = some s)
    (hg : room.guestSocketId = some g)
    (hturn : s.currentPlayerSocketId = self.sid) :
    (self.sid = room.hostSocketId →
      (runEv w (Ev.drawCards self roomId)).1 =
        { w with gameStates := (alSet roomId
            { s with
              hostDeck := s.hostDeck.take
                (s.hostDeck.length - min (5 - s.hostHand.length) s.hostDeck.length)
              hostHand := s.hostHand ++ (s.hostDeck.drop
                (s.hostDeck.length - min (5 - s.hostHand.length) s.hostDeck.length)).reverse }
            w.gameStates) } ∧
      (s.hostHand.length ≤ 5 →
        (s.hostHand ++ (s.hostDeck.drop
          (s.hostDeck.length - min (5 - s.hostHand.length) s.hostDeck.length)).reverse).length = 5
        ∨ s.hostDeck.take
            (s.hostDeck.length - min (5 - s.hostHand.length) s.hostDeck.length) = [])) ∧
    (self.sid ≠ room.hostSocketId →
      (runEv w (Ev.drawCards self roomId)).1 =
        { w with gameStates := (alSet roomId
            { s with
              guestDeck := s.guestDeck.take
                (s.guestDeck.length - min (5 - s.guestHand.length) s.guestDeck.length)
              guestHand := s.guestHand ++ (s.guestDeck.drop
                (s.guestDeck.length - min (5 - s.guestHand.length) s.guestDeck.length)).reverse }
            w.gameStates) } ∧
      (s.guestHand.length ≤ 5 →
        (s.guestHand ++ (s.guestDeck.drop
          (s.guestDeck.length - min (5 - s.guestHand.length) s.guestDeck.length)).reverse).length = 5
        ∨ s.guestDeck.take
            (s.guestDeck.length - min (5 - s.guestHand.length) s.guestDeck.length) = [])) := by
  constructor
  · intro hsid
    constructor
    · rw [runEv, if_pos hconn, runDrawCards.eq_def]
      simp only [hroom, hstate, hg]
      rw [if_neg (not_not_intro hturn), if_pos hsid]
      rw [drawLoop, drawGo_closed s.hostDeck.length s.hostDeck s.hostHand (Nat.le_refl _)]
    · exact drawClosed_final s.hostDeck s.hostHand
  · intro hsid
    constructor
    · rw [runEv, if_pos hconn, runDrawCards.eq_def]
      simp only [hroom, hstate, hg]
      rw [if_neg (not_not_intro hturn), if_neg hsid]
      rw [drawLoop, drawGo_closed s.guestDeck.length s.guestDeck s.guestHand (Nat.le_refl _)]
    · exact drawClosed_final s.guestDeck s.guestHand

/-- Witness for C6: the host draws from the freshly started game. -/
theorem claim_c6_witness :
    ((runEv w4 (Ev.drawCards hostSock 1)).1 =
      { w4 with gameStates := (alSet 1
          { state4 with
            hostDeck := state4.hostDeck.take
              (state4.hostDeck.length - min (5 - state4.hostHand.length) state4.hostDeck.length)
            hostHand := state4.hostHand ++ (state4.hostDeck.drop
              (state4.hostDeck.length
                - min (5 - state4.hostHand.length) state4.hostDeck.length)).reverse }
          w4.gameStates) }) ∧
    ((state4.hostHand ++ (state4.hostDeck.drop
        (state4.hostDeck.length
          - min (5 - state4.hostHand.length) state4.hostDeck.length)).reverse).length = 5
      ∨ state4.hostDeck.take
          (state4.hostDeck.length
            - min (5 - state4.hostHand.length) state4.hostDeck.length) = []) :=
  have h := claim_c6_drawCards hostSock 1 w4 room16 state4 "g"
    (by decide) (by decide) (by decide) (by decide) (by decide)
  ⟨(h.1 rfl).1, (h.1 rfl).2 (by decide)⟩

/-- C8: from any in-game state whose current player is one of the room's
two sockets, an `endTurn` by the current player followed by an `endTurn`
by the new current player restores the original game state exactly
(`some s`, every field included), and leaves the room registry, the
connection set, the id counter and every other room's game state
untouched. -/
theorem claim_c8_endTurn_twice (self1 self2 : SocketInfo) (roomId : Nat)
    (w : World) (room : MatchmakingRoom) (s : GameState) (g : String)
    (hconn1 : self1.sid ∈ w.conn) (hconn2 : self2.sid ∈ w.conn)
    (hroom : alGet roomId w.rooms = some room)
    (hstate : alGet roomId w.gameStates = some s)
    (hg : room.guestSocketId = some g)
    (hturn : s.currentPlayerSocketId = self1.sid)
    (hcur : s.currentPlayerSocketId = room.hostSocketId ∨ s.currentPlayerSocketId = g)
    (hs2 : self2.sid = (if s.currentPlayerSocketId = room.hostSocketId then g
                        else room.hostSocketId)) :
    alGet roomId (runEv (runEv w (Ev.endTurn self1 roomId)).1
      (Ev.endTurn self2 roomId)).1.gameStates = some s ∧
    (runEv (runEv w (Ev.endTurn self1 roomId)).1
      (Ev.endTurn self2 roomId)).1.rooms = w.rooms ∧
    (runEv (runEv w (Ev.endTurn self1 roomId)).1
      (Ev.endTurn self2 roomId)).1.conn = w.conn ∧
    (runEv (runEv w (Ev.endTurn self1 roomId)).1
      (Ev.endTurn self2 roomId)).1.nextRoomId = w.nextRoomId ∧
    ∀ k, k ≠ roomId →
      alGet k (runEv (runEv w (Ev.endTurn self1 roomId)).1
        (Ev.endTurn self2 roomId)).1.gameStates = alGet k w.gameStates := by
  have hw1 : (runEv w (Ev.endTurn self1 roomId)).1 =
      { w with gameStates := (alSet roomId
        { s with currentPlayerSocketId :=
            if s.currentPlayerSocketId = room.hostSocketId then g
            else room.hostSocketId } w.gameStates) } := by
    rw [runEv, if_pos hconn1, runEndTurn.eq_def]
    simp only [hroom, hstate, hg]
    rw [if_neg (not_not_intro hturn)]
  rw [hw1]
  have hw2 : (runEv
      ({ w with gameStates := (alSet roomId
        { s with currentPlayerSocketId :=
            if s.currentPlayerSocketId = room.hostSocketId then g
            else room.hostSocketId } w.gameStates) })
      (Ev.endTurn self2 roomId)).1 =
      { w with gameStates := (alSet roomId
        { s with currentPlayerSocketId :=
            if (if s.currentPlayerSocketId = room.hostSocketId then g
                else room.hostSocketId) = room.hostSocketId then g
            else room.hostSocketId }
        (alSet roomId
          { s with currentPlayerSocketId :=
              if s.currentPlayerSocketId = room.hostSocketId then g
              else room.hostSocketId } w.gameStates)) } := by
    rw [runEv]
    rw [if_pos (show self2.sid ∈ w.conn from hconn2)]
    rw [runEndTurn.eq_def]
    simp only [hroom, alGet_alSet_self, hg]
    rw [if_neg (not_not_intro hs2.symm)]
  rw [hw2]
  have hflip : ({ s with currentPlayerSocketId :=
      if (if s.currentPlayerSocketId = room.hostSocketId then g
          else room.hostSocketId) = room.hostSocketId then g
      else room.hostSocketId } : GameState) = s := by
    rcases hcur with hc | hc
    · rw [if_pos hc]
      by_cases hgh : g = room.hostSocketId
      · rw [if_pos hgh, hgh, ← hc]
      · rw [if_neg hgh, ← hc]
    · by_cases hch : s.currentPlayerSocketId = room.hostSocketId
      · rw [if_pos hch]
        by_cases hgh : g = room.hostSocketId
        · rw [if_pos hgh, hgh, ← hch]
        · rw [if_neg hgh, ← hch]
      · rw [if_neg hch, if_pos rfl, ← hc]
  rw [hflip]
  refine ⟨alGet_alSet_self, rfl, rfl, rfl, ?_⟩
  intro k hk
  rw [show (({ w with gameStates := (alSet roomId s (alSet roomId
      { s with currentPlayerSocketId :=
          if s.currentPlayerSocketId = room.hostSocketId then g
          else room.hostSocketId } w.gameStates)) } : World)).gameStates
    = alSet roomId s (alSet roomId
      { s with currentPlayerSocketId :=
          if s.currentPlayerSocketId = room.hostSocketId then g
          else room.hostSocketId } w.gameStates) from rfl]
  rw [alGet_alSet_ne (fun h => hk h.symm), alGet_alSet_ne (fun h => hk h.symm)]

/-- Witness for C8 at the concrete world `w6`. -/
theorem claim_c8_witness :
    alGet 1 (runEv (runEv w6 (Ev.endTurn hostSock 1)).1
      (Ev.endTurn guestSock 1)).1.gameStates = some sampleState6 ∧
    (runEv (runEv w6 (Ev.endTurn hostSock 1)).1
      (Ev.endTurn guestSock 1)).1.rooms = w6.rooms ∧
    (runEv (runEv w6 (Ev.endTurn hostSock 1)).1
      (Ev.endTurn guestSock 1)).1.conn = w6.conn ∧
    (runEv (runEv w6 (Ev.endTurn hostSock 1)).1
      (Ev.endTurn guestSock 1)).1.nextRoomId = w6.nextRoomId ∧
    alGet 2 (runEv (runEv w6 (Ev.endTurn hostSock 1)).1
      (Ev.endTurn guestSock 1)).1.gameStates = alGet 2 w6.gameStates :=
  have h := claim_c8_endTurn_twice hostSock guestSock 1 w6 room16 sampleState6 "g"
    (by decide) (by decide) (by decide) (by decide) (by decide) (by decide)
    (Or.inl (by decide)) (by decide)
  ⟨h.1, h.2.1, h.2.2.1, h.2.2.2.1, h.2.2.2.2 2 (by decide)⟩

/-- C1 amended: `joinRoom` performs no self-join check.  A join request
whose session's user id equals the room host's user id is processed like
any other join: when the usual checks pass (room waiting and empty, deck
owned by the joiner with 10 cards, host connected, host deck reloaded
with 10 cards) it succeeds — the room becomes in-game with the host's
own user as guest, a game state is created, and `gameStarted` (no error)
is emitted. -/
theorem claim_c1_amended_self_join_succeeds (self : SocketInfo)
    (roomId deckId : Nat) (deck hostDeckData : Deck)
    (rndHost rndGuest : Nat → Nat) (w : World) (room : MatchmakingRoom)
    (hconn : self.sid ∈ w.conn)
    (hroom : alGet roomId w.rooms = some room)
    (hid : room.id = roomId)
    (hwait : room.status = RoomStatus.waiting)
    (hng : room.guestSocketId = none)
    (hown : deck.userId = self.userId)
    (hlen : deck.cards.length = 10)
    (hhost : room.hostSocketId ∈ w.conn)
    (hhlen : hostDeckData.cards.length = 10)
    (_hself : self.userId = room.hostUserId) :
    (runEv w (Ev.joinRoom self roomId deckId (some deck) (some hostDeckData)
        rndHost rndGuest)).1 =
      { w with
        rooms := alSet roomId (joinedRoom room self deckId deck) w.rooms
        gameStates := alSet roomId
          (joinedState room deck hostDeckData rndHost rndGuest) w.gameStates } ∧
    (runEv w (Ev.joinRoom self roomId deckId (some deck) (some hostDeckData)
        rndHost rndGuest)).2 =
      [Output.gameStarted room.hostSocketId roomId Role.host Role.guest
         room.hostUserId self.userId room.hostDeckId deckId,
       Output.gameStarted self.sid roomId Role.guest Role.host
         self.userId room.hostUserId deckId room.hostDeckId,
       Output.roomsListUpdated (getWaitingRooms
         (alSet roomId (joinedRoom room self deckId deck) w.rooms))] := by
  rw [runEv, if_pos hconn, runJoinRoom.eq_def]
  simp only [hroom]
  rw [if_neg (by simp [hwait, hng])]
  rw [if_neg (by simp [hown])]
  rw [if_neg (by simp [hlen])]
  rw [if_neg (not_not_intro hhost)]
  rw [if_neg (by simp [hhlen])]
  simp only [joinedRoom, joinedState]
  rw [hid]
  exact ⟨rfl, rfl⟩

/-- Counterexample for C1: the joining session's user id (7) equals the
room host's user id (7) and every deck check passes, yet the operation
does not fail — it emits `gameStarted` (no `error`), promotes the room to
in-game with the host's own user as guest, and creates a game state.
The claim (fail with SELF_JOIN, room unchanged, no game state) is false
at this input. -/
theorem claim_c1_counterexample :
    selfSock.userId = room3.hostUserId ∧
    alGet 1 u3.rooms = some room3 ∧
    alGet 1 (runEv u3 (Ev.joinRoom selfSock 1 1 (some sampleDeckH)
        (some sampleDeckH) id id)).1.rooms =
      some { room3 with
        status := RoomStatus.inGame
        guestSocketId := some "g2"
        guestUserId := some 7
        guestUsername := some "alice"
        guestDeckId := some 1 } ∧
    (alGet 1 (runEv u3 (Ev.joinRoom selfSock 1 1 (some sampleDeckH)
        (some sampleDeckH) id id)).1.gameStates).isSome = true ∧
    (runEv u3 (Ev.joinRoom selfSock 1 1 (some sampleDeckH)
        (some sampleDeckH) id id)).2 =
      [Output.gameStarted "h" 1 Role.host Role.guest 7 7 1 1,
       Output.gameStarted "g2" 1 Role.guest Role.host 7 7 1 1,
       Output.roomsListUpdated []] := by
  decide

/-- Witness for the amended C1 at the same concrete input. -/
theorem claim_c1_witness :
    (runEv u3 (Ev.joinRoom selfSock 1 1 (some sampleDeckH) (some sampleDeckH)
        id id)).1 =
      { u3 with
        rooms := alSet 1 (joinedRoom room3 selfSock 1 sampleDeckH) u3.rooms
        gameStates := alSet 1
          (joinedState room3 sampleDeckH sampleDeckH id id) u3.gameStates } ∧
    (runEv u3 (Ev.joinRoom selfSock 1 1 (some sampleDeckH) (some sampleDeckH)
        id id)).2 =
      [Output.gameStarted room3.hostSocketId 1 Role.host Role.guest
         room3.hostUserId selfSock.userId room3.hostDeckId 1,
       Output.gameStarted selfSock.sid 1 Role.guest Role.host
         selfSock.userId room3.hostUserId 1 room3.hostDeckId,
       Output.roomsListUpdated (getWaitingRooms
         (alSet 1 (joinedRoom room3 selfSock 1 sampleDeckH) u3.rooms))] :=
  claim_c1_amended_self_join_succeeds selfSock 1 1 sampleDeckH sampleDeckH
    id id u3 room3 (by decide) (by decide) (by decide) (by decide) (by decide)
    (by decide) (by decide) (by decide) (by decide) (by decide)

/-- C2 (code bug): when `joinRoom`'s post-suspension reload of the host
deck yields a deck of size ≠ 10, the handler replies with an error but
leaves the room half-mutated: status `in-game`, guest fields set, and no
game state — the registry is NOT as it was before the handler ran.
Evaluation of the handler at the failing input. -/
theorem claim_c2_half_mutation_eval :
    alGet 1 w3.rooms = some room3 ∧
    (runEv w3 (Ev.joinRoom guestSock 1 2 (some sampleDeckG) (some deck9) id id)).2 =
      [Output.errorEvt "g" "joinRoom" "Deck du host invalide"] ∧
    alGet 1 (runEv w3 (Ev.joinRoom guestSock 1 2 (some sampleDeckG)
        (some deck9) id id)).1.rooms =
      some { room3 with
        status := RoomStatus.inGame
        guestSocketId := some "g"
        guestUserId := some 8
        guestUsername := some "bob"
        guestDeckId := some 2 } ∧
    alGet 1 (runEv w3 (Ev.joinRoom guestSock 1 2 (some sampleDeckG)
        (some deck9) id id)).1.gameStates = none := by
  decide

/-- C10: a `joinRoom` that targets an existing waiting room whose host
socket is no longer connected (and whose deck checks pass) sends the
joiner an error, deletes the room from the registry, broadcasts
`roomsListUpdated`, and creates no game state. -/
theorem claim_c10_host_disconnected (self : SocketInfo) (roomId deckId : Nat)
    (deck : Deck) (hostDeckRes : Option Deck) (rndHost rndGuest : Nat → Nat)
    (w : World) (room : MatchmakingRoom)
    (hconn : self.sid ∈ w.conn)
    (hroom : alGet roomId w.rooms = some room)
    (hid : room.id = roomId)
    (hwait : room.status = RoomStatus.waiting)
    (hng : room.guestSocketId = none)
    (hown : deck.userId = self.userId)
    (hlen : deck.cards.length = 10)
    (hhost : room.hostSocketId ∉ w.conn) :
    runEv w (Ev.joinRoom self roomId deckId (some deck) hostDeckRes
        rndHost rndGuest) =
      ({ w with rooms := alErase roomId w.rooms },
       [Output.errorEvt self.sid "joinRoom" "Le joueur hôte est déconnecté",
        Output.roomsListUpdated (getWaitingRooms (alErase roomId w.rooms))]) ∧
    alGet roomId (alErase roomId w.rooms) = none ∧
    ({ w with rooms := alErase roomId w.rooms } : World).gameStates
      = w.gameStates := by
  refine ⟨?_, alGet_alErase_self, rfl⟩
  rw [runEv, if_pos hconn, runJoinRoom.eq_def]
  simp only [hroom]
  rw [if_neg (by simp [hwait, hng])]
  rw [if_neg (by simp [hown])]
  rw [if_neg (by simp [hlen])]
  rw [if_pos hhost]
  rw [hid]

/-- Witness for C10 at the orphaned-host world. -/
theorem claim_c10_witness :
    runEv wOrphan (Ev.joinRoom guestSock 1 2 (some sampleDeckG) none id id) =
      ({ wOrphan with rooms := alErase 1 wOrphan.rooms },
       [Output.errorEvt "g" "joinRoom" "Le joueur hôte est déconnecté",
        Output.roomsListUpdated (getWaitingRooms (alErase 1 wOrphan.rooms))]) ∧
    alGet 1 (alErase 1 wOrphan.rooms) = none ∧
    ({ wOrphan with rooms := alErase 1 wOrphan.rooms } : World).gameStates
      = wOrphan.gameStates :=
  claim_c10_host_disconnected guestSock 1 2 sampleDeckG none id id wOrphan
    room3 (by decide) (by decide) (by decide) (by decide) (by decide)
    (by decide) (by decide) (by decide)

/-- C7 amended: the id guards coerce payload values with JS `Number` —
strings parse to (possibly fractional) numbers, not integers — and reject
exactly the falsy values and the values whose coercion is `NaN`.  A value
coercing to a non-integral finite number passes the guard unrejected and
then misses every entry of the integer-keyed registry, so the handler
falls through to its room-not-found error; and a `drawCards` whose room
lookup fails replies with that error and changes no state. -/
theorem claim_c7_amended_guard (v : JsVal) (q : Rat) (keys : List Nat)
    (h1 : toNumber v = JsNum.fin q) (h2 : q.den ≠ 1) :
    idRejected v = false ∧
    roomKeyMatches keys (toNumber v) = false ∧
    (∀ (w : World) (self : SocketInfo) (rid : Nat), self.sid ∈ w.conn →
      alGet rid w.rooms = none →
      runEv w (Ev.drawCards self rid) =
        (w, [Output.errorEvt self.sid "drawCards"
          "Room introuvable ou partie non démarrée"])) := by
  refine ⟨?_, ?_, ?_⟩
  · have hnn : decide (toNumber v = JsNum.nan) = false := by
      simp [h1]
    have ht : truthy v = true := by
      cases v with
      | undef => simp [toNumber] at h1
      | num n =>
        cases n with
        | fin r =>
          rw [show toNumber (JsVal.num (JsNum.fin r)) = JsNum.fin r from rfl] at h1
          obtain rfl : r = q := by injection h1
          rw [truthy]
          simp only [decide_eq_true_eq]
          intro h0
          rw [h0] at h2
          exact h2 rfl
        | nan => simp [toNumber] at h1
        | posInf => simp [toNumber] at h1
        | negInf => simp [toNumber] at h1
      | str s =>
        by_cases hs : s = ""
        · subst hs
          rw [show toNumber (JsVal.str "") = JsNum.fin 0 from rfl] at h1
          obtain rfl : (0 : Rat) = q := by injection h1
          exact absurd rfl h2
        · simp [truthy, hs]
    rw [idRejected, ht, hnn]
    rfl
  · rw [h1, roomKeyMatches]
    rw [List.any_eq_false]
    intro k hk
    simp only [decide_eq_true_eq]
    intro hkq
    apply h2
    rw [← hkq]
    exact Rat.den_natCast k
  · intro w self rid hc hnone
    rw [runEv, if_pos hc, runDrawCards.eq_def, hnone]

/-- Counterexample for C7: the string `"1.5"` coerces to the non-integer
3/2, yet the guard does not reject it — `idRejected` is false, so no
BAD_REQUEST error is raised; the value then misses every integer room
key.  The claim (every non-finite-integer value rejected with
BAD_REQUEST) is false at this input. -/
theorem claim_c7_counterexample :
    toNumber (JsVal.str "1.5") = JsNum.fin (mkRat 3 2) ∧
    (mkRat 3 2).den ≠ 1 ∧
    idRejected (JsVal.str "1.5") = false ∧
    roomKeyMatches [1, 2, 3] (toNumber (JsVal.str "1.5")) = false := by
  decide

/-- Witness for the amended C7 at the string `"1.5"`. -/
theorem claim_c7_witness :
    idRejected (JsVal.str "1.5") = false ∧
    roomKeyMatches [1, 2] (toNumber (JsVal.str "1.5")) = false ∧
    runEv wGuard (Ev.drawCards { sid := "z", userId := 9 } 5) =
      (wGuard, [Output.errorEvt "z" "drawCards"
        "Room introuvable ou partie non démarrée"]) :=
  have h := claim_c7_amended_guard (JsVal.str "1.5") (mkRat 3 2) [1, 2]
    (by decide) (by decide)
  ⟨h.1, h.2.1, h.2.2 wGuard { sid := "z", userId := 9 } 5 (by decide) (by decide)⟩
